import Mathlib

/-!
Shallow embedding of the `anft_marketplace` Solana/Anchor program
(`programs/anft_marketplace/src/lib.rs`).

Modelling conventions:
* `u64` quantities (prices, amounts, lamport balances, counters) are `Nat`
  with explicit `< 2^64` bounds where the source uses `checked_*` arithmetic;
  `i64` timestamps/durations are `Int` with explicit i64-range checks where
  the source uses `checked_add`.
* Pubkeys of wallets (signers, admin, fee recipient) are `Nat` identities;
  program-derived addresses (PDAs) are the constructors of `Addr`, mirroring
  the deterministic seed derivation (`marketplace`, `escrow` + mint,
  `offer_escrow` + mint + offerer).  `Pubkey::default()` is identity `0`.
* Account records live in association lists keyed by their seed tuple, so
  "the PDA exists" is `getA … = some _`.  Anchor's account resolution phase
  (deserialization of `Account<…>`, `init` / `init_if_needed` semantics,
  `close = target` constraints) is modelled at the head / tail of each
  instruction, before / after the handler body, in source order.
* Lamport and SPL-token moves are balance-map updates that fail with
  `insufficientFunds` when the source balance is too small (the host runtime
  rejects such transfers).  Rent-exempt minima are taken as 0, so escrow
  balances consist purely of escrowed funds; `emergency_withdraw` takes the
  host-supplied minimum balance as an explicit parameter.
-/

/-- The error enum of the program (`MarketplaceError`). -/
inductive MarketplaceError where
  | MarketplacePaused
  | AlreadyPaused
  | NotPaused
  | PriceMustBePositive
  | DurationTooShort
  | SellerDoesNotOwnNft
  | ListingNotActive
  | ListingExpired
  | CannotBuyOwnListing
  | UseAuctionBidding
  | IncorrectPayment
  | Unauthorized
  | FeeTooHigh
  | InvalidFeeRecipient
  | InvalidSeller
  | InvalidOfferer
  | OfferAmountMustBePositive
  | CannotOfferOnOwnListing
  | OfferNotActive
  | OfferExpired
  | Overflow
  | NothingToWithdraw
deriving DecidableEq, Repr

/-- Instruction outcome: a program error, or a failure raised by the host
runtime / Anchor account-resolution layer. -/
inductive Err where
  | prog (e : MarketplaceError)
  | accountNotFound
  | accountAlreadyInitialized
  | insufficientFunds
deriving DecidableEq, Repr

/-- Addresses: wallet identities plus the program's deterministic PDAs. -/
inductive Addr where
  | user (id : Nat)
  | marketplacePda
  | escrowPda (mint : Nat)
  | offerEscrowPda (mint : Nat) (offerer : Nat)
deriving DecidableEq, Repr

/-- `Marketplace` account data (bump omitted: PDA mechanics are the `Addr`
constructors themselves). -/
structure Marketplace where
  admin : Nat
  fee_recipient : Nat
  fee_bps : Nat
  paused : Bool
  listing_count : Nat
deriving DecidableEq, Repr

/-- `Listing` account data. -/
structure Listing where
  seller : Nat
  nft_mint : Nat
  price : Nat
  expiration_time : Int
  is_active : Bool
  is_auction : Bool
  highest_bid : Nat
  highest_bidder : Nat
  created_at : Int
deriving DecidableEq, Repr

/-- `Offer` account data. -/
structure Offer where
  offerer : Nat
  nft_mint : Nat
  amount : Nat
  expiration_time : Int
  is_active : Bool
  created_at : Int
deriving DecidableEq, Repr

/-- `Escrow` account data (asset-escrow authority PDA). -/
structure Escrow where
  nft_mint : Nat
deriving DecidableEq, Repr

/-- `OfferEscrow` account data (currency-escrow PDA). -/
structure OfferEscrow where
  nft_mint : Nat
  offerer : Nat
deriving DecidableEq, Repr

/-- Fresh `Listing` as Anchor's `init_if_needed` zero-initializes it. -/
def Listing.blank : Listing :=
  { seller := 0, nft_mint := 0, price := 0, expiration_time := 0,
    is_active := false, is_auction := false, highest_bid := 0,
    highest_bidder := 0, created_at := 0 }

/-! ### Association-list stores -/

/-- Lookup in an association list. -/
def getA {α β : Type} [DecidableEq α] : List (α × β) → α → Option β
  | [], _ => none
  | (k, v) :: rest, k' => if k = k' then some v else getA rest k'

/-- Insert-or-replace in an association list. -/
def setA {α β : Type} [DecidableEq α] : List (α × β) → α → β → List (α × β)
  | [], k, v => [(k, v)]
  | (k0, v0) :: rest, k, v =>
      if k0 = k then (k, v) :: rest else (k0, v0) :: setA rest k v

/-- Delete a key from an association list (all occurrences, as an account
store has at most one record per address). -/
def delA {α β : Type} [DecidableEq α] : List (α × β) → α → List (α × β)
  | [], _ => []
  | (k0, v0) :: rest, k =>
      if k0 = k then delA rest k else (k0, v0) :: delA rest k

/-- Lookup with a default value. -/
def getDA {α β : Type} [DecidableEq α] (l : List (α × β)) (k : α) (d : β) : β :=
  (getA l k).getD d

/-- Add to a balance entry (missing entries count as 0). -/
def bumpA {α : Type} [DecidableEq α] (l : List (α × Nat)) (k : α)
    (amt : Nat) : List (α × Nat) :=
  setA l k ((getA l k).getD 0 + amt)

/-- The whole on-chain state touched by the program. -/
structure Chain where
  marketplace : Option Marketplace
  listings : List (Nat × Listing)
  escrows : List (Nat × Escrow)
  offers : List ((Nat × Nat) × Offer)
  offerEscrows : List ((Nat × Nat) × OfferEscrow)
  lamports : List (Addr × Nat)
  tokens : List ((Nat × Addr) × Nat)
deriving DecidableEq, Repr

/-- Native-currency balance of an address. -/
def Chain.bal (s : Chain) (a : Addr) : Nat := getDA s.lamports a 0

/-- SPL-token balance of `owner`'s associated token account for `mint`. -/
def Chain.tok (s : Chain) (mint : Nat) (owner : Addr) : Nat :=
  getDA s.tokens (mint, owner) 0

/-! ### Bounded machine arithmetic -/

/-- `2^64`, the exclusive bound of `u64`. -/
def U64 : Nat := 2 ^ 64

/-- `i64::MIN`. -/
def I64Min : Int := -(2 ^ 63)

/-- `i64::MAX`. -/
def I64Max : Int := 2 ^ 63 - 1

/-- `u64::checked_mul`. -/
def checkedMulU64 (a b : Nat) : Option Nat :=
  if a * b < U64 then some (a * b) else none

/-- `u64::checked_add`. -/
def checkedAddU64 (a b : Nat) : Option Nat :=
  if a + b < U64 then some (a + b) else none

/-- `i64::checked_add` (both operands assumed in range, result checked). -/
def checkedAddI64 (a b : Int) : Option Int :=
  if I64Min ≤ a + b ∧ a + b ≤ I64Max then some (a + b) else none

/-! ### Ledger primitives -/

/-- `system_program::transfer` / raw lamport moves: debits `src`, credits
`dst`; the host rejects a transfer exceeding the source balance. -/
def transferLamports (s : Chain) (src dst : Addr) (amt : Nat) :
    Except Err Chain :=
  if amt ≤ s.bal src then
    Except.ok
      { s with
        lamports := bumpA (setA s.lamports src (s.bal src - amt)) dst amt }
  else
    Except.error Err.insufficientFunds

/-- `token::transfer`: moves `amt` units of `mint` between token accounts. -/
def transferTokens (s : Chain) (mint : Nat) (src dst : Addr) (amt : Nat) :
    Except Err Chain :=
  if amt ≤ s.tok mint src then
    Except.ok
      { s with
        tokens := bumpA (setA s.tokens (mint, src) (s.tok mint src - amt)) (mint, dst) amt }
  else
    Except.error Err.insufficientFunds

/-- `require!` macro. -/
def requireP (c : Prop) [Decidable c] (e : MarketplaceError) :
    Except Err Unit :=
  if c then Except.ok () else Except.error (Err.prog e)

/-! ### Settlement arithmetic (lines 163–166 and 329–335 of the source) -/

/-- The fee/payout computation shared by `buy_nft` and `accept_offer`:
`fee = price.checked_mul(fee_bps)? / 10_000`,
`seller_amount = price.checked_sub(fee)?`, both `checked_*` failures mapped
to `MarketplaceError::Overflow`. -/
def settle (price fee_bps : Nat) : Except Err (Nat × Nat) :=
  match checkedMulU64 price fee_bps with
  | none => Except.error (Err.prog MarketplaceError.Overflow)
  | some p =>
      let fee := p / 10000
      if fee ≤ price then Except.ok (fee, price - fee)
      else Except.error (Err.prog MarketplaceError.Overflow)

/-! ### Instruction handlers -/

/-- Debit lamports from an address (host rejects overdraft). -/
def debit (s : Chain) (a : Addr) (amt : Nat) : Except Err Chain :=
  if amt ≤ s.bal a then
    Except.ok { s with lamports := setA s.lamports a (s.bal a - amt) }
  else Except.error Err.insufficientFunds

/-- Credit lamports to an address. -/
def credit (s : Chain) (a : Addr) (amt : Nat) : Chain :=
  { s with lamports := bumpA s.lamports a amt }

/-- `initialize_marketplace(fee_bps)`: `init` of the marketplace PDA, then
the handler body (fee cap check, field initialization). -/
def initialize_marketplace (s : Chain) (admin fee_recipient fee_bps : Nat) :
    Except Err Chain :=
  match s.marketplace with
  | some _ => Except.error Err.accountAlreadyInitialized
  | none => do
      requireP (fee_bps ≤ 1000) .FeeTooHigh
      let m : Marketplace :=
        { admin := admin, fee_recipient := fee_recipient, fee_bps := fee_bps,
          paused := false, listing_count := 0 }
      Except.ok { s with marketplace := some m }

/-- `list_nft(price, duration, is_auction)`: listing/escrow PDAs are
`init_if_needed` (blank when absent); handler checks in source order, then
asset moves seller → escrow and the listing counter is bumped. -/
def list_nft (s : Chain) (seller mint price : Nat) (duration : Int)
    (is_auction : Bool) (now : Int) : Except Err Chain :=
  match s.marketplace with
  | none => Except.error Err.accountNotFound
  | some m => do
      let listing0 := getDA s.listings mint Listing.blank
      requireP (m.paused = false) .MarketplacePaused
      requireP (price > 0) .PriceMustBePositive
      requireP (duration ≥ 86400) .DurationTooShort
      requireP (listing0.is_active = false) .ListingNotActive
      requireP (s.tok mint (Addr.user seller) = 1) .SellerDoesNotOwnNft
      match checkedAddI64 now duration with
      | none => Except.error (Err.prog .Overflow)
      | some expiration => do
          let listing : Listing :=
            { seller := seller, nft_mint := mint, price := price,
              expiration_time := expiration, is_active := true,
              is_auction := is_auction, highest_bid := 0,
              highest_bidder := 0, created_at := now }
          let s1 := { s with
            listings := setA s.listings mint listing,
            escrows := setA s.escrows mint { nft_mint := mint } }
          let s2 ← transferTokens s1 mint (Addr.user seller)
            (Addr.escrowPda mint) 1
          match checkedAddU64 m.listing_count 1 with
          | none => Except.error (Err.prog .Overflow)
          | some c =>
              let m2 := { m with listing_count := c }
              Except.ok { s2 with marketplace := some m2 }

/-- `cancel_listing`: seller-or-admin check, active check, asset back
escrow → seller, and the listing account is closed (`close = authority`). -/
def cancel_listing (s : Chain) (authority mint : Nat) : Except Err Chain :=
  match s.marketplace, getA s.listings mint, getA s.escrows mint with
  | some m, some listing, some _e => do
      requireP (authority = listing.seller ∨ authority = m.admin) .Unauthorized
      requireP (listing.is_active = true) .ListingNotActive
      let s1 ← transferTokens s mint (Addr.escrowPda mint)
        (Addr.user listing.seller) 1
      Except.ok { s1 with listings := delA s1.listings mint }
  | _, _, _ => Except.error Err.accountNotFound

/-- `buy_nft`: checks in source order (active, unexpired, not self-trade,
not auction), settlement via `settle`, currency buyer → seller and
buyer → fee recipient (fee skipped when 0), asset escrow → buyer, then the
listing is deactivated but retained. -/
def buy_nft (s : Chain) (buyer mint : Nat) (now : Int) : Except Err Chain :=
  match s.marketplace, getA s.listings mint, getA s.escrows mint with
  | some m, some listing, some _e => do
      requireP (listing.is_active = true) .ListingNotActive
      requireP (now < listing.expiration_time) .ListingExpired
      requireP (buyer ≠ listing.seller) .CannotBuyOwnListing
      requireP (listing.is_auction = false) .UseAuctionBidding
      let fp ← settle listing.price m.fee_bps
      let s1 ← transferLamports s (Addr.user buyer)
        (Addr.user listing.seller) fp.2
      let s2 ← if fp.1 > 0 then
          transferLamports s1 (Addr.user buyer) (Addr.user m.fee_recipient) fp.1
        else Except.ok s1
      let s3 ← transferTokens s2 mint (Addr.escrowPda mint)
        (Addr.user buyer) 1
      let ls := setA s3.listings mint { listing with is_active := false }
      Except.ok { s3 with listings := ls }
  | _, _, _ => Except.error Err.accountNotFound

/-- `make_offer(amount, duration)`: offer/offer-escrow PDAs are
`init_if_needed` and the handler overwrites every field unconditionally,
then moves `amount` lamports offerer → offer escrow (on top of whatever the
escrow already held). -/
def make_offer (s : Chain) (offerer mint amount : Nat) (duration : Int)
    (now : Int) : Except Err Chain :=
  match s.marketplace, getA s.listings mint with
  | some m, some listing => do
      requireP (m.paused = false) .MarketplacePaused
      requireP (amount > 0) .OfferAmountMustBePositive
      requireP (listing.is_active = true) .ListingNotActive
      requireP (offerer ≠ listing.seller) .CannotOfferOnOwnListing
      match checkedAddI64 now duration with
      | none => Except.error (Err.prog .Overflow)
      | some expiration => do
          let offer : Offer :=
            { offerer := offerer, nft_mint := mint, amount := amount,
              expiration_time := expiration, is_active := true,
              created_at := now }
          let s1 := { s with
            offers := setA s.offers (mint, offerer) offer,
            offerEscrows := setA s.offerEscrows (mint, offerer)
              { nft_mint := mint, offerer := offerer } }
          transferLamports s1 (Addr.user offerer)
            (Addr.offerEscrowPda mint offerer) amount
  | _, _ => Except.error Err.accountNotFound

/-- `cancel_offer`: offerer check, active check, `amount` lamports
escrow → offerer, then both accounts are closed (`close = offerer`, which
also sweeps any residual escrow balance to the offerer). -/
def cancel_offer (s : Chain) (offerer mint : Nat) : Except Err Chain :=
  match getA s.offers (mint, offerer), getA s.offerEscrows (mint, offerer) with
  | some offer, some _oe => do
      requireP (offerer = offer.offerer) .InvalidOfferer
      requireP (offer.is_active = true) .OfferNotActive
      let ea := Addr.offerEscrowPda mint offerer
      let s1 ← debit s ea offer.amount
      let s2 := credit s1 (Addr.user offerer) offer.amount
      let rest := s2.bal ea
      let s3 ← debit s2 ea rest
      let s4 := credit s3 (Addr.user offerer) rest
      Except.ok { s4 with
        offers := delA s4.offers (mint, offerer),
        offerEscrows := delA s4.offerEscrows (mint, offerer) }
  | _, _ => Except.error Err.accountNotFound

/-- `accept_offer`: checks in source order (listing active, offer active,
caller is listing seller, offer unexpired — the listing's own expiration is
never consulted), settlement via `settle`, lamports escrow −amount /
seller +payout / fee recipient +fee, asset escrow → offerer, listing
deactivated but retained, offer and offer escrow closed (`close = seller`). -/
def accept_offer (s : Chain) (seller offerer mint : Nat) (now : Int) :
    Except Err Chain :=
  match s.marketplace, getA s.listings mint, getA s.escrows mint,
      getA s.offers (mint, offerer), getA s.offerEscrows (mint, offerer) with
  | some m, some listing, some _e, some offer, some _oe => do
      requireP (listing.is_active = true) .ListingNotActive
      requireP (offer.is_active = true) .OfferNotActive
      requireP (seller = listing.seller) .InvalidSeller
      requireP (now < offer.expiration_time) .OfferExpired
      let fp ← settle offer.amount m.fee_bps
      let ea := Addr.offerEscrowPda mint offerer
      let s1 ← debit s ea offer.amount
      let s2 := credit s1 (Addr.user seller) fp.2
      let s3 := if fp.1 > 0 then credit s2 (Addr.user m.fee_recipient) fp.1
        else s2
      let s4 ← transferTokens s3 mint (Addr.escrowPda mint)
        (Addr.user offerer) 1
      let ls := setA s4.listings mint { listing with is_active := false }
      let s5 := { s4 with listings := ls }
      let rest := s5.bal ea
      let s6 ← debit s5 ea rest
      let s7 := credit s6 (Addr.user seller) rest
      Except.ok { s7 with
        offers := delA s7.offers (mint, offerer),
        offerEscrows := delA s7.offerEscrows (mint, offerer) }
  | _, _, _, _, _ => Except.error Err.accountNotFound

/-- `update_price(new_price)`: positivity, active and seller checks in
source order, then the price is replaced. -/
def update_price (s : Chain) (seller mint new_price : Nat) :
    Except Err Chain :=
  match getA s.listings mint with
  | some listing => do
      requireP (new_price > 0) .PriceMustBePositive
      requireP (listing.is_active = true) .ListingNotActive
      requireP (seller = listing.seller) .InvalidSeller
      let ls := setA s.listings mint { listing with price := new_price }
      Except.ok { s with listings := ls }
  | none => Except.error Err.accountNotFound

/-- `pause_marketplace`: admin-only, fails when already paused. -/
def pause_marketplace (s : Chain) (admin : Nat) : Except Err Chain :=
  match s.marketplace with
  | some m => do
      requireP (admin = m.admin) .Unauthorized
      requireP (m.paused = false) .AlreadyPaused
      Except.ok { s with marketplace := some { m with paused := true } }
  | none => Except.error Err.accountNotFound

/-- `unpause_marketplace`: admin-only, fails when not paused. -/
def unpause_marketplace (s : Chain) (admin : Nat) : Except Err Chain :=
  match s.marketplace with
  | some m => do
      requireP (admin = m.admin) .Unauthorized
      requireP (m.paused = true) .NotPaused
      Except.ok { s with marketplace := some { m with paused := false } }
  | none => Except.error Err.accountNotFound

/-- `update_fee(new_fee_bps)`: the fee-cap check precedes the admin check,
as in the source. -/
def update_fee (s : Chain) (admin new_fee_bps : Nat) : Except Err Chain :=
  match s.marketplace with
  | some m => do
      requireP (new_fee_bps ≤ 1000) .FeeTooHigh
      requireP (admin = m.admin) .Unauthorized
      Except.ok { s with marketplace := some { m with fee_bps := new_fee_bps } }
  | none => Except.error Err.accountNotFound

/-- `update_fee_recipient`: admin-only; the new recipient must not be the
null identity (`Pubkey::default()`, modelled as identity 0). -/
def update_fee_recipient (s : Chain) (admin new_recipient : Nat) :
    Except Err Chain :=
  match s.marketplace with
  | some m => do
      requireP (admin = m.admin) .Unauthorized
      requireP (new_recipient ≠ 0) .InvalidFeeRecipient
      let m2 := { m with fee_recipient := new_recipient }
      Except.ok { s with marketplace := some m2 }
  | none => Except.error Err.accountNotFound

/-- `emergency_withdraw(amount)`: admin-only; `available` is the PDA balance
minus the host-reported rent minimum (checked subtraction), the withdrawal is
`min(amount, available)` and must be positive. -/
def emergency_withdraw (s : Chain) (admin amount minBalance : Nat) :
    Except Err Chain :=
  match s.marketplace with
  | some m => do
      requireP (admin = m.admin) .Unauthorized
      requireP (amount > 0) .NothingToWithdraw
      let b := s.bal Addr.marketplacePda
      if minBalance ≤ b then do
        let w := min amount (b - minBalance)
        requireP (w > 0) .NothingToWithdraw
        let s1 ← debit s Addr.marketplacePda w
        Except.ok (credit s1 (Addr.user admin) w)
      else Except.error (Err.prog .NothingToWithdraw)
  | none => Except.error Err.accountNotFound

/-! ### The operation alphabet and the step function -/

/-- One call to any of the program's thirteen entry points. -/
inductive Op where
  | initMarketplace (admin fee_recipient fee_bps : Nat)
  | listNft (seller mint price : Nat) (duration : Int) (auction : Bool)
      (now : Int)
  | cancelListing (authority mint : Nat)
  | buyNft (buyer mint : Nat) (now : Int)
  | makeOffer (offerer mint amount : Nat) (duration : Int) (now : Int)
  | cancelOffer (offerer mint : Nat)
  | acceptOffer (seller offerer mint : Nat) (now : Int)
  | updatePrice (seller mint new_price : Nat)
  | pause (admin : Nat)
  | unpause (admin : Nat)
  | updateFee (admin new_fee_bps : Nat)
  | updateFeeRecipient (admin new_recipient : Nat)
  | emergencyWithdraw (admin amount minBalance : Nat)
deriving DecidableEq, Repr

/-- Dispatch one operation. -/
def step (s : Chain) : Op → Except Err Chain
  | .initMarketplace a f b => initialize_marketplace s a f b
  | .listNft sl mint p d au now => list_nft s sl mint p d au now
  | .cancelListing a mint => cancel_listing s a mint
  | .buyNft b mint now => buy_nft s b mint now
  | .makeOffer o mint amt d now => make_offer s o mint amt d now
  | .cancelOffer o mint => cancel_offer s o mint
  | .acceptOffer sl o mint now => accept_offer s sl o mint now
  | .updatePrice sl mint p => update_price s sl mint p
  | .pause a => pause_marketplace s a
  | .unpause a => unpause_marketplace s a
  | .updateFee a b => update_fee s a b
  | .updateFeeRecipient a r => update_fee_recipient s a r
  | .emergencyWithdraw a amt mb => emergency_withdraw s a amt mb

/-- Run a sequence of operations from a starting state. -/
def runOps (s : Chain) : List Op → Except Err Chain
  | [] => Except.ok s
  | op :: rest => do
      let s1 ← step s op
      runOps s1 rest

/-! ### Invariants and claim-support definitions -/

/-- Did the call succeed? -/
def isOkE {α : Type} : Except Err α → Bool
  | Except.ok _ => true
  | Except.error _ => false

instance {ε α : Type} [DecidableEq ε] [DecidableEq α] :
    DecidableEq (Except ε α) := fun x y =>
  match x, y with
  | Except.ok a, Except.ok b =>
      if h : a = b then Decidable.isTrue (by rw [h])
      else Decidable.isFalse (by simp [h])
  | Except.error e, Except.error f =>
      if h : e = f then Decidable.isTrue (by rw [h])
      else Decidable.isFalse (by simp [h])
  | Except.ok _, Except.error _ => Decidable.isFalse (by simp)
  | Except.error _, Except.ok _ => Decidable.isFalse (by simp)

/-- Currency-escrow invariant (spec §3): an OfferEscrow holds exactly its
active Offer's `amount`, and 0 when no active Offer exists at the pair. -/
def offerEscrowInv (s : Chain) : Prop :=
  ∀ mint offerer : Nat,
    s.bal (Addr.offerEscrowPda mint offerer) =
      match getA s.offers (mint, offerer) with
      | some o => if o.is_active then o.amount else 0
      | none => 0

/-- Does this operation re-make an offer over a pair that still has an
active Offer outstanding? -/
def overwritesActiveOffer (s : Chain) : Op → Bool
  | Op.makeOffer offerer mint _ _ _ =>
      match getA s.offers (mint, offerer) with
      | some o => o.is_active
      | none => false
  | _ => false

/-- Replace the pause flag (when the config exists). -/
def setPaused (s : Chain) (b : Bool) : Chain :=
  { s with marketplace := s.marketplace.map fun m => { m with paused := b } }

/-- The mutating entry points that never read the pause flag. -/
def ignoresPause : Op → Bool
  | Op.buyNft .. => true
  | Op.cancelListing .. => true
  | Op.cancelOffer .. => true
  | Op.acceptOffer .. => true
  | Op.updatePrice .. => true
  | _ => false

/-- The entry points whose handlers write `fee_bps`. -/
def writesFeeBps : Op → Bool
  | Op.initMarketplace .. => true
  | Op.updateFee .. => true
  | _ => false

/-- Fee-cap invariant (spec §3): `fee_bps ≤ 1000` whenever the config
exists. -/
def feeInv (s : Chain) : Prop :=
  ∀ m : Marketplace, s.marketplace = some m → m.fee_bps ≤ 1000

/-! ### Concrete scenario states -/

/-- Genesis: wallet 1 owns one unit of mint 7; wallets 2 and 3 hold native
currency; nothing is initialized. -/
def genesis : Chain :=
  { marketplace := none, listings := [], escrows := [], offers := [],
    offerEscrows := [],
    lamports := [(Addr.user 2, 1000), (Addr.user 3, 1000)],
    tokens := [((7, Addr.user 1), 1)] }

/-- Genesis after `initialize_marketplace` (admin 10, fee recipient 11,
500 bps). -/
def initChain : Chain :=
  (step genesis (Op.initMarketplace 10 11 500)).toOption.getD genesis

/-- `initChain` after seller 1 lists mint 7 at price 100 for one day at
time 0. -/
def listedChain : Chain :=
  (step initChain (Op.listNft 1 7 100 86400 false 0)).toOption.getD genesis

/-- `listedChain` after wallet 2 places one long-lived offer of amount 5
(expires at 100000, past the listing's own expiration 86400). -/
def offerChain : Chain :=
  (step listedChain (Op.makeOffer 2 7 5 100000 0)).toOption.getD genesis

/-- `offerChain` after wallet 2 re-offers amount 3 on the same pair while
the first offer is still active: the offer-overwrite scenario. -/
def doubleOfferChain : Chain :=
  (step offerChain (Op.makeOffer 2 7 3 1000 0)).toOption.getD genesis

/-- `offerChain` after the offerer cancels the offer. -/
def cancelledOfferChain : Chain :=
  (step offerChain (Op.cancelOffer 2 7)).toOption.getD genesis

/-- `listedChain` after the seller cancels the listing. -/
def cancelledChain : Chain :=
  (step listedChain (Op.cancelListing 1 7)).toOption.getD genesis

/-- `offerChain` after the seller accepts the offer at time 10. -/
def acceptedChain : Chain :=
  (step offerChain (Op.acceptOffer 1 2 7 10)).toOption.getD genesis

/-- `listedChain` after the admin pauses the marketplace. -/
def pausedChain : Chain :=
  (step listedChain (Op.pause 10)).toOption.getD genesis

/-- `pausedChain` after wallet 3 buys mint 7 at time 5 — while paused. -/
def boughtWhilePausedChain : Chain :=
  (step pausedChain (Op.buyNft 3 7 5)).toOption.getD genesis

/-- `listedChain` after wallet 3 buys mint 7 at time 5 (not paused). -/
def boughtChain : Chain :=
  (step listedChain (Op.buyNft 3 7 5)).toOption.getD genesis

/-- A state whose listing and offer amounts are large enough that
`price * fee_bps` overflows `u64`. -/
def bigChain : Chain :=
  { marketplace := some
      { admin := 10, fee_recipient := 11, fee_bps := 1000, paused := false,
        listing_count := 1 },
    listings := [(7,
      { seller := 1, nft_mint := 7, price := 2 ^ 62, expiration_time := 100,
        is_active := true, is_auction := false, highest_bid := 0,
        highest_bidder := 0, created_at := 0 })],
    escrows := [(7, { nft_mint := 7 })],
    offers := [((7, 2),
      { offerer := 2, nft_mint := 7, amount := 2 ^ 62,
        expiration_time := 100, is_active := true, created_at := 0 })],
    offerEscrows := [((7, 2), { nft_mint := 7, offerer := 2 })],
    lamports := [(Addr.offerEscrowPda 7 2, 2 ^ 62)],
    tokens := [((7, Addr.escrowPda 7), 1)] }

/-! ### Basic lemmas about the embedding -/

@[simp] theorem bind_ok_ex {α β : Type} (a : α) (f : α → Except Err β) :
    (Except.ok a >>= f) = f a := rfl

@[simp] theorem bind_error_ex {α β : Type} (e : Err) (f : α → Except Err β) :
    (Except.error e >>= f : Except Err β) = Except.error e := rfl

@[simp] theorem getA_setA_self {α β : Type} [DecidableEq α]
    (l : List (α × β)) (k : α) (v : β) : getA (setA l k v) k = some v := by
  induction l with
  | nil => simp [getA, setA]
  | cons p rest ih =>
      obtain ⟨k0, v0⟩ := p
      by_cases h : k0 = k <;> simp [getA, setA, h, ih]

theorem getA_setA_ne {α β : Type} [DecidableEq α]
    (l : List (α × β)) {k k' : α} (v : β) (h : k' ≠ k) :
    getA (setA l k v) k' = getA l k' := by
  induction l with
  | nil => simp [getA, setA, Ne.symm h]
  | cons p rest ih =>
      obtain ⟨k0, v0⟩ := p
      by_cases h0 : k0 = k
      · subst h0
        simp [getA, setA, Ne.symm h]
      · simp [getA, setA, h0, ih]

@[simp] theorem getA_delA_self {α β : Type} [DecidableEq α]
    (l : List (α × β)) (k : α) : getA (delA l k) k = none := by
  induction l with
  | nil => simp [getA, delA]
  | cons p rest ih =>
      obtain ⟨k0, v0⟩ := p
      by_cases h : k0 = k <;> simp [getA, delA, h, ih]

theorem getA_delA_ne {α β : Type} [DecidableEq α]
    (l : List (α × β)) {k k' : α} (h : k' ≠ k) :
    getA (delA l k) k' = getA l k' := by
  induction l with
  | nil => simp [getA, delA]
  | cons p rest ih =>
      obtain ⟨k0, v0⟩ := p
      by_cases h0 : k0 = k
      · subst h0
        simp [getA, delA, Ne.symm h, ih]
      · simp [getA, delA, h0, ih]

@[simp] theorem getA_bumpA_self {α : Type} [DecidableEq α]
    (l : List (α × Nat)) (k : α) (amt : Nat) :
    getA (bumpA l k amt) k = some ((getA l k).getD 0 + amt) := by
  simp [bumpA]

theorem getA_bumpA_ne {α : Type} [DecidableEq α]
    (l : List (α × Nat)) {k k' : α} (amt : Nat) (h : k' ≠ k) :
    getA (bumpA l k amt) k' = getA l k' := by
  simp [bumpA, getA_setA_ne _ _ h]

/-! ### Settlement lemmas -/

theorem settle_ok (price fee_bps : Nat) (hb : fee_bps ≤ 1000)
    (hm : price * fee_bps < U64) :
    settle price fee_bps =
      Except.ok (price * fee_bps / 10000, price - price * fee_bps / 10000) := by
  have hfee : price * fee_bps / 10000 ≤ price := by
    calc price * fee_bps / 10000 ≤ price * 10000 / 10000 :=
          Nat.div_le_div_right
            (Nat.mul_le_mul_left price (le_trans hb (by norm_num)))
      _ = price := Nat.mul_div_cancel price (by norm_num)
  simp [settle, checkedMulU64, hm, hfee]

theorem settle_overflow (price fee_bps : Nat) (hm : U64 ≤ price * fee_bps) :
    settle price fee_bps = Except.error (Err.prog MarketplaceError.Overflow) := by
  simp [settle, checkedMulU64, Nat.not_lt.mpr hm]

/-! ### Ledger-primitive lemmas -/

theorem transferLamports_fields {s s' : Chain} {src dst : Addr} {amt : Nat}
    (h : transferLamports s src dst amt = Except.ok s') :
    s'.marketplace = s.marketplace ∧ s'.listings = s.listings ∧
    s'.escrows = s.escrows ∧ s'.offers = s.offers ∧
    s'.offerEscrows = s.offerEscrows ∧ s'.tokens = s.tokens := by
  unfold transferLamports at h
  split at h
  · cases h; exact ⟨rfl, rfl, rfl, rfl, rfl, rfl⟩
  · exact Except.noConfusion h

theorem transferLamports_bal_other {s s' : Chain} {src dst : Addr} {amt : Nat}
    (h : transferLamports s src dst amt = Except.ok s') (a : Addr)
    (hs : a ≠ src) (hd : a ≠ dst) : s'.bal a = s.bal a := by
  unfold transferLamports at h
  split at h
  · cases h
    simp [Chain.bal, getDA, getA_bumpA_ne _ _ hd, getA_setA_ne _ _ hs]
  · exact Except.noConfusion h

theorem transferLamports_bal_dst {s s' : Chain} {src dst : Addr} {amt : Nat}
    (h : transferLamports s src dst amt = Except.ok s') (hne : dst ≠ src) :
    s'.bal dst = s.bal dst + amt := by
  unfold transferLamports at h
  split at h
  · cases h
    simp [Chain.bal, getDA, getA_setA_ne _ _ hne]
  · exact Except.noConfusion h

theorem transferTokens_fields {s s' : Chain} {mint : Nat} {src dst : Addr}
    {amt : Nat} (h : transferTokens s mint src dst amt = Except.ok s') :
    s'.marketplace = s.marketplace ∧ s'.listings = s.listings ∧
    s'.escrows = s.escrows ∧ s'.offers = s.offers ∧
    s'.offerEscrows = s.offerEscrows ∧ s'.lamports = s.lamports := by
  unfold transferTokens at h
  split at h
  · cases h; exact ⟨rfl, rfl, rfl, rfl, rfl, rfl⟩
  · exact Except.noConfusion h

theorem transferTokens_tok_dst {s s' : Chain} {mint : Nat} {src dst : Addr}
    {amt : Nat} (h : transferTokens s mint src dst amt = Except.ok s')
    (hne : dst ≠ src) : s'.tok mint dst = s.tok mint dst + amt := by
  unfold transferTokens at h
  split at h
  · cases h
    have : (mint, dst) ≠ (mint, src) := by simp [hne]
    simp [Chain.tok, getDA, getA_setA_ne _ _ this]
  · exact Except.noConfusion h

theorem debit_fields {s s' : Chain} {a : Addr} {amt : Nat}
    (h : debit s a amt = Except.ok s') :
    s'.marketplace = s.marketplace ∧ s'.listings = s.listings ∧
    s'.escrows = s.escrows ∧ s'.offers = s.offers ∧
    s'.offerEscrows = s.offerEscrows ∧ s'.tokens = s.tokens := by
  unfold debit at h
  split at h
  · cases h; exact ⟨rfl, rfl, rfl, rfl, rfl, rfl⟩
  · exact Except.noConfusion h

theorem debit_bal_self {s s' : Chain} {a : Addr} {amt : Nat}
    (h : debit s a amt = Except.ok s') : s'.bal a = s.bal a - amt := by
  unfold debit at h
  split at h
  · cases h; simp [Chain.bal, getDA]
  · exact Except.noConfusion h

theorem debit_bal_other {s s' : Chain} {a a' : Addr} {amt : Nat}
    (h : debit s a amt = Except.ok s') (hne : a' ≠ a) :
    s'.bal a' = s.bal a' := by
  unfold debit at h
  split at h
  · cases h; simp [Chain.bal, getDA, getA_setA_ne _ _ hne]
  · exact Except.noConfusion h

theorem debit_ok_of_le {s : Chain} {a : Addr} {amt : Nat}
    (h : amt ≤ s.bal a) :
    debit s a amt =
      Except.ok { s with lamports := setA s.lamports a (s.bal a - amt) } := by
  simp [debit, h]

@[simp] theorem credit_marketplace (s : Chain) (a : Addr) (amt : Nat) :
    (credit s a amt).marketplace = s.marketplace := rfl

@[simp] theorem credit_listings (s : Chain) (a : Addr) (amt : Nat) :
    (credit s a amt).listings = s.listings := rfl

@[simp] theorem credit_escrows (s : Chain) (a : Addr) (amt : Nat) :
    (credit s a amt).escrows = s.escrows := rfl

@[simp] theorem credit_offers (s : Chain) (a : Addr) (amt : Nat) :
    (credit s a amt).offers = s.offers := rfl

@[simp] theorem credit_offerEscrows (s : Chain) (a : Addr) (amt : Nat) :
    (credit s a amt).offerEscrows = s.offerEscrows := rfl

@[simp] theorem credit_tokens (s : Chain) (a : Addr) (amt : Nat) :
    (credit s a amt).tokens = s.tokens := rfl

@[simp] theorem credit_bal_self (s : Chain) (a : Addr) (amt : Nat) :
    (credit s a amt).bal a = s.bal a + amt := by
  simp [credit, Chain.bal, getDA]

theorem credit_bal_other (s : Chain) {a a' : Addr} (amt : Nat)
    (hne : a' ≠ a) : (credit s a amt).bal a' = s.bal a' := by
  simp [credit, Chain.bal, getDA, getA_bumpA_ne _ _ hne]

/-! ### Per-instruction effect lemmas -/

theorem bind_eq_ok {α β : Type} {x : Except Err α} {f : α → Except Err β}
    {b : β} (h : (x >>= f) = Except.ok b) :
    ∃ a, x = Except.ok a ∧ f a = Except.ok b := by
  cases x with
  | ok a => exact ⟨a, rfl, h⟩
  | error e => exact Except.noConfusion h

theorem debit_le {s s' : Chain} {a : Addr} {amt : Nat}
    (h : debit s a amt = Except.ok s') : amt ≤ s.bal a := by
  unfold debit at h
  split at h
  · assumption
  · exact Except.noConfusion h

theorem update_price_ok {s s' : Chain} {seller mint p : Nat}
    (h : update_price s seller mint p = Except.ok s') :
    s'.marketplace = s.marketplace ∧ s'.offers = s.offers ∧
    s'.lamports = s.lamports := by
  unfold update_price at h
  repeat' (first
    | split at h
    | simp only [requireP, bind_ok_ex, bind_error_ex] at h)
  all_goals first
    | (cases h; exact ⟨rfl, rfl, rfl⟩)
    | exact Except.noConfusion h

theorem initialize_ok {s s' : Chain} {a f bps : Nat}
    (h : initialize_marketplace s a f bps = Except.ok s') :
    s'.offers = s.offers ∧ s'.lamports = s.lamports ∧ bps ≤ 1000 ∧
    s'.marketplace = some
      { admin := a, fee_recipient := f, fee_bps := bps, paused := false,
        listing_count := 0 } := by
  unfold initialize_marketplace at h
  repeat' (first
    | split at h
    | simp only [requireP, bind_ok_ex, bind_error_ex] at h)
  all_goals first
    | (cases h; exact ⟨rfl, rfl, by assumption, rfl⟩)
    | exact Except.noConfusion h

theorem pause_ok {s s' : Chain} {a : Nat}
    (h : pause_marketplace s a = Except.ok s') :
    s'.offers = s.offers ∧ s'.lamports = s.lamports ∧
    ∃ m, s.marketplace = some m ∧
      s'.marketplace = some { m with paused := true } := by
  unfold pause_marketplace at h
  repeat' (first
    | split at h
    | simp only [requireP, bind_ok_ex, bind_error_ex] at h)
  all_goals first
    | (cases h; exact ⟨rfl, rfl, _, by assumption, rfl⟩)
    | exact Except.noConfusion h

theorem unpause_ok {s s' : Chain} {a : Nat}
    (h : unpause_marketplace s a = Except.ok s') :
    s'.offers = s.offers ∧ s'.lamports = s.lamports ∧
    ∃ m, s.marketplace = some m ∧
      s'.marketplace = some { m with paused := false } := by
  unfold unpause_marketplace at h
  repeat' (first
    | split at h
    | simp only [requireP, bind_ok_ex, bind_error_ex] at h)
  all_goals first
    | (cases h; exact ⟨rfl, rfl, _, by assumption, rfl⟩)
    | exact Except.noConfusion h

theorem update_fee_ok {s s' : Chain} {a bps : Nat}
    (h : update_fee s a bps = Except.ok s') :
    s'.offers = s.offers ∧ s'.lamports = s.lamports ∧ bps ≤ 1000 ∧
    ∃ m, s.marketplace = some m ∧
      s'.marketplace = some { m with fee_bps := bps } := by
  unfold update_fee at h
  repeat' (first
    | split at h
    | simp only [requireP, bind_ok_ex, bind_error_ex] at h)
  all_goals first
    | (cases h; exact ⟨rfl, rfl, by assumption, _, by assumption, rfl⟩)
    | exact Except.noConfusion h

theorem update_fee_recipient_ok {s s' : Chain} {a r : Nat}
    (h : update_fee_recipient s a r = Except.ok s') :
    s'.offers = s.offers ∧ s'.lamports = s.lamports ∧
    ∃ m, s.marketplace = some m ∧
      s'.marketplace = some { m with fee_recipient := r } := by
  unfold update_fee_recipient at h
  repeat' (first
    | split at h
    | simp only [requireP, bind_ok_ex, bind_error_ex] at h)
  all_goals first
    | (cases h; exact ⟨rfl, rfl, _, by assumption, rfl⟩)
    | exact Except.noConfusion h

theorem emergency_withdraw_ok {s s' : Chain} {a amt mb : Nat}
    (h : emergency_withdraw s a amt mb = Except.ok s') :
    s'.offers = s.offers ∧ s'.marketplace = s.marketplace ∧
    ∀ b : Addr, b ≠ Addr.marketplacePda → (∀ u, b ≠ Addr.user u) →
      s'.bal b = s.bal b := by
  unfold emergency_withdraw at h
  repeat' (first
    | split at h
    | simp only [requireP, bind_ok_ex, bind_error_ex] at h)
  all_goals try exact Except.noConfusion h
  obtain ⟨s1, hd, h⟩ := bind_eq_ok h
  cases h
  obtain ⟨hm, -, -, ho, -, -⟩ := debit_fields hd
  refine ⟨ho, hm, ?_⟩
  intro b hb hu
  rw [credit_bal_other _ _ (hu a), debit_bal_other hd hb]

theorem list_nft_ok {s s' : Chain} {seller mint price : Nat} {duration : Int}
    {au : Bool} {now : Int}
    (h : list_nft s seller mint price duration au now = Except.ok s') :
    s'.offers = s.offers ∧ s'.lamports = s.lamports ∧
    ∃ m c, s.marketplace = some m ∧
      s'.marketplace = some { m with listing_count := c } := by
  unfold list_nft at h
  repeat' (first
    | split at h
    | simp only [requireP, bind_ok_ex, bind_error_ex] at h)
  all_goals try exact Except.noConfusion h
  all_goals obtain ⟨s2, htr, h⟩ := bind_eq_ok h
  all_goals try exact Except.noConfusion h
  cases h
  obtain ⟨hmk, hls, hes, hof, hoe, hlam⟩ := transferTokens_fields htr
  exact ⟨hof, hlam, _, _, by assumption, rfl⟩

theorem cancel_listing_ok {s s' : Chain} {auth mint : Nat}
    (h : cancel_listing s auth mint = Except.ok s') :
    s'.marketplace = s.marketplace ∧ s'.offers = s.offers ∧
    s'.lamports = s.lamports ∧ getA s'.listings mint = none := by
  unfold cancel_listing at h
  repeat' (first
    | split at h
    | simp only [requireP, bind_ok_ex, bind_error_ex] at h)
  all_goals try exact Except.noConfusion h
  obtain ⟨s1, htr, h⟩ := bind_eq_ok h
  cases h
  obtain ⟨hmk, hls, hes, hof, hoe, hlam⟩ := transferTokens_fields htr
  refine ⟨hmk, hof, hlam, ?_⟩
  simp

theorem make_offer_ok {s s' : Chain} {offerer mint amount : Nat}
    {duration now : Int}
    (h : make_offer s offerer mint amount duration now = Except.ok s') :
    s'.marketplace = s.marketplace ∧
    (∃ exp, checkedAddI64 now duration = some exp ∧
      s'.offers = setA s.offers (mint, offerer)
        { offerer := offerer, nft_mint := mint, amount := amount,
          expiration_time := exp, is_active := true, created_at := now }) ∧
    s'.bal (Addr.offerEscrowPda mint offerer) =
      s.bal (Addr.offerEscrowPda mint offerer) + amount ∧
    (∀ mint2 off2 : Nat, (mint2, off2) ≠ (mint, offerer) →
      s'.bal (Addr.offerEscrowPda mint2 off2) =
        s.bal (Addr.offerEscrowPda mint2 off2)) := by
  unfold make_offer at h
  repeat' (first
    | split at h
    | simp only [requireP, bind_ok_ex, bind_error_ex] at h)
  all_goals try exact Except.noConfusion h
  obtain ⟨hmk, hls, hes, hof, hoe, hlam⟩ := transferLamports_fields h
  have hdst := transferLamports_bal_dst h
    (show Addr.offerEscrowPda mint offerer ≠ Addr.user offerer by simp)
  refine ⟨hmk, ⟨_, by assumption, hof⟩, hdst, ?_⟩
  intro mint2 off2 hne
  have hkey : Addr.offerEscrowPda mint2 off2 ≠ Addr.offerEscrowPda mint offerer := by
    intro hc
    injection hc with a1 a2
    exact hne (by rw [a1, a2])
  exact transferLamports_bal_other h _
    (show Addr.offerEscrowPda mint2 off2 ≠ Addr.user offerer by simp) hkey

theorem transferLamports_le {s s' : Chain} {src dst : Addr} {amt : Nat}
    (h : transferLamports s src dst amt = Except.ok s') : amt ≤ s.bal src := by
  unfold transferLamports at h
  split at h
  · assumption
  · exact Except.noConfusion h

theorem transferLamports_ok_of_le {s : Chain} {src dst : Addr} {amt : Nat}
    (h : amt ≤ s.bal src) :
    transferLamports s src dst amt =
      Except.ok
        { s with
          lamports := bumpA (setA s.lamports src (s.bal src - amt)) dst amt } := by
  simp [transferLamports, h]

theorem transferTokens_le {s s' : Chain} {mint : Nat} {src dst : Addr}
    {amt : Nat} (h : transferTokens s mint src dst amt = Except.ok s') :
    amt ≤ s.tok mint src := by
  unfold transferTokens at h
  split at h
  · assumption
  · exact Except.noConfusion h

theorem transferTokens_ok_of_le {s : Chain} {mint : Nat} {src dst : Addr}
    {amt : Nat} (h : amt ≤ s.tok mint src) :
    transferTokens s mint src dst amt =
      Except.ok
        { s with
          tokens := bumpA (setA s.tokens (mint, src) (s.tok mint src - amt)) (mint, dst) amt } := by
  simp [transferTokens, h]

theorem cancel_offer_ok {s s' : Chain} {offerer mint : Nat}
    (h : cancel_offer s offerer mint = Except.ok s') :
    s'.marketplace = s.marketplace ∧
    s'.offers = delA s.offers (mint, offerer) ∧
    getA s'.offerEscrows (mint, offerer) = none ∧
    s'.bal (Addr.offerEscrowPda mint offerer) = 0 ∧
    (∀ mint2 off2 : Nat, (mint2, off2) ≠ (mint, offerer) →
      s'.bal (Addr.offerEscrowPda mint2 off2) =
        s.bal (Addr.offerEscrowPda mint2 off2)) ∧
    s'.bal (Addr.user offerer) =
      s.bal (Addr.user offerer) + s.bal (Addr.offerEscrowPda mint offerer) ∧
    s'.tokens = s.tokens ∧ s'.listings = s.listings := by
  unfold cancel_offer at h
  repeat' (first
    | split at h
    | simp only [requireP, bind_ok_ex, bind_error_ex] at h)
  all_goals try exact Except.noConfusion h
  obtain ⟨s1, hd1, h⟩ := bind_eq_ok h
  have hle1 := debit_le hd1
  rw [debit_ok_of_le hle1] at hd1
  injection hd1 with hd1
  subst hd1
  try simp only [] at h
  obtain ⟨s3, hd2, h⟩ := bind_eq_ok h
  have hle2 := debit_le hd2
  rw [debit_ok_of_le hle2] at hd2
  injection hd2 with hd2
  subst hd2
  cases h
  have ea_ne_u : Addr.offerEscrowPda mint offerer ≠ Addr.user offerer := by simp
  have u_ne_ea : Addr.user offerer ≠ Addr.offerEscrowPda mint offerer := by simp
  refine ⟨rfl, rfl, by simp, ?_, ?_, ?_, rfl, rfl⟩
  · simp only [Chain.bal, getDA, credit, bumpA] at *
    simp [getA_setA_ne _ _ ea_ne_u, getA_setA_ne _ _ u_ne_ea]
  · intro mint2 off2 hne
    have hkey : Addr.offerEscrowPda mint2 off2 ≠ Addr.offerEscrowPda mint offerer := by
      intro hc
      injection hc with a1 a2
      exact hne (by rw [a1, a2])
    have hkeyu : Addr.offerEscrowPda mint2 off2 ≠ Addr.user offerer := by simp
    simp only [Chain.bal, getDA, credit, bumpA] at *
    simp [getA_setA_ne _ _ hkey, getA_setA_ne _ _ hkeyu]
  · simp only [Chain.bal, getDA, credit, bumpA] at *
    simp [getA_setA_ne _ _ ea_ne_u, getA_setA_ne _ _ u_ne_ea]
    omega

theorem buy_nft_ok {s s' : Chain} {buyer mint : Nat} {now : Int}
    (h : buy_nft s buyer mint now = Except.ok s') :
    s'.marketplace = s.marketplace ∧ s'.offers = s.offers ∧
    s'.escrows = s.escrows ∧
    (∀ b : Addr, (∀ u, b ≠ Addr.user u) → s'.bal b = s.bal b) ∧
    ∃ listing, getA s.listings mint = some listing ∧
      listing.is_active = true ∧
      getA s'.listings mint = some { listing with is_active := false } ∧
      s'.tok mint (Addr.user buyer) = s.tok mint (Addr.user buyer) + 1 := by
  unfold buy_nft at h
  repeat' (first
    | split at h
    | simp only [requireP, bind_ok_ex, bind_error_ex] at h)
  all_goals try exact Except.noConfusion h
  obtain ⟨fp, hset, h⟩ := bind_eq_ok h
  try simp only [] at h
  obtain ⟨s1, ht1, h⟩ := bind_eq_ok h
  have hle1 := transferLamports_le ht1
  rw [transferLamports_ok_of_le hle1] at ht1
  injection ht1 with ht1
  subst ht1
  try simp only [] at h
  have hbe : (mint, Addr.user buyer) ≠ (mint, Addr.escrowPda mint) := by simp
  split at h
  · obtain ⟨s2, ht2, h⟩ := bind_eq_ok h
    have hle2 := transferLamports_le ht2
    rw [transferLamports_ok_of_le hle2] at ht2
    injection ht2 with ht2
    subst ht2
    try simp only [] at h
    obtain ⟨s3, ht3, h⟩ := bind_eq_ok h
    have hle3 := transferTokens_le ht3
    rw [transferTokens_ok_of_le hle3] at ht3
    injection ht3 with ht3
    subst ht3
    cases h
    refine ⟨rfl, rfl, rfl, ?_, _, by assumption, by assumption, by simp, ?_⟩
    · intro b hu
      simp only [Chain.bal, getDA]
      rw [getA_bumpA_ne _ _ (hu _), getA_setA_ne _ _ (hu _),
        getA_bumpA_ne _ _ (hu _), getA_setA_ne _ _ (hu _)]
    · simp only [Chain.tok, getDA]
      rw [getA_bumpA_self, getA_setA_ne _ _ hbe]
      simp [Chain.tok, getDA]
  · obtain ⟨s3, ht3, h⟩ := bind_eq_ok h
    have hle3 := transferTokens_le ht3
    rw [transferTokens_ok_of_le hle3] at ht3
    injection ht3 with ht3
    subst ht3
    cases h
    refine ⟨rfl, rfl, rfl, ?_, _, by assumption, by assumption, by simp, ?_⟩
    · intro b hu
      simp only [Chain.bal, getDA]
      rw [getA_bumpA_ne _ _ (hu _), getA_setA_ne _ _ (hu _)]
    · simp only [Chain.tok, getDA]
      rw [getA_bumpA_self, getA_setA_ne _ _ hbe]
      simp [Chain.tok, getDA]

theorem accept_offer_ok {s s' : Chain} {seller offerer mint : Nat} {now : Int}
    (h : accept_offer s seller offerer mint now = Except.ok s') :
    s'.marketplace = s.marketplace ∧
    s'.offers = delA s.offers (mint, offerer) ∧
    getA s'.offerEscrows (mint, offerer) = none ∧
    s'.bal (Addr.offerEscrowPda mint offerer) = 0 ∧
    (∀ mint2 off2 : Nat, (mint2, off2) ≠ (mint, offerer) →
      s'.bal (Addr.offerEscrowPda mint2 off2) =
        s.bal (Addr.offerEscrowPda mint2 off2)) ∧
    ∃ listing, getA s.listings mint = some listing ∧
      listing.is_active = true ∧
      getA s'.listings mint = some { listing with is_active := false } := by
  unfold accept_offer at h
  repeat' (first
    | split at h
    | simp only [requireP, bind_ok_ex, bind_error_ex] at h)
  all_goals try exact Except.noConfusion h
  obtain ⟨fp, hset, h⟩ := bind_eq_ok h
  try simp only [] at h
  obtain ⟨s1, hd1, h⟩ := bind_eq_ok h
  have hle1 := debit_le hd1
  rw [debit_ok_of_le hle1] at hd1
  injection hd1 with hd1
  subst hd1
  try simp only [] at h
  have ea_ne_us : Addr.offerEscrowPda mint offerer ≠ Addr.user seller := by simp
  split at h
  all_goals (
    obtain ⟨s4, ht4, h⟩ := bind_eq_ok h
    have hle4 := transferTokens_le ht4
    rw [transferTokens_ok_of_le hle4] at ht4
    injection ht4 with ht4
    subst ht4
    try simp only [] at h
    obtain ⟨s6, hd2, h⟩ := bind_eq_ok h
    have hle6 := debit_le hd2
    rw [debit_ok_of_le hle6] at hd2
    injection hd2 with hd2
    subst hd2
    cases h)
  all_goals refine ⟨rfl, rfl, by simp, ?_, ?_, _, by assumption, by assumption, by simp⟩
  all_goals try (
    intro mint2 off2 hne
    (have hkey : Addr.offerEscrowPda mint2 off2 ≠ Addr.offerEscrowPda mint offerer := by
      intro hc
      injection hc with a1 a2
      exact hne (by rw [a1, a2]))
    (have hkeyu : ∀ u, Addr.offerEscrowPda mint2 off2 ≠ Addr.user u := by simp)
    simp only [Chain.bal, getDA, credit, bumpA]
    simp [getA_setA_ne _ _ hkey, getA_setA_ne _ _ (hkeyu _)])
  all_goals (
    simp only [Chain.bal, getDA, credit, bumpA]
    simp [getA_setA_ne _ _ ea_ne_us])

@[simp] theorem isOkE_ok {α : Type} (a : α) : isOkE (Except.ok a) = true := rfl

@[simp] theorem isOkE_error {α : Type} (e : Err) :
    isOkE (Except.error e : Except Err α) = false := rfl

theorem isOkE_exists {α : Type} {x : Except Err α} (h : isOkE x = true) :
    ∃ a, x = Except.ok a := by
  cases x with
  | ok a => exact ⟨a, rfl⟩
  | error e => exact Bool.noConfusion h

theorem fee_le_price (price bps : Nat) (hb : bps ≤ 1000) :
    price * bps / 10000 ≤ price := by
  calc price * bps / 10000 ≤ price * 10000 / 10000 :=
        Nat.div_le_div_right
          (Nat.mul_le_mul_left price (le_trans hb (by norm_num)))
    _ = price := Nat.mul_div_cancel price (by norm_num)

/-- C1: For every purchase via `buy_nft` and every acceptance via
`accept_offer`, with `price > 0` and the marketplace's `fee_bps` at most
1000, the computed fee equals `⌊price * fee_bps / 10000⌋` and the seller's
payout equals `price - fee`, so `fee + payout = price`; and when
`price * fee_bps` overflows `u64`, the settlement — and with it the whole
`buy_nft` / `accept_offer` call — aborts with the `Overflow` error rather
than wrapping. -/
theorem settlement_fee_payout_correct :
    (∀ price fee_bps : Nat, 0 < price → fee_bps ≤ 1000 →
      price * fee_bps < U64 →
      settle price fee_bps =
        Except.ok (price * fee_bps / 10000, price - price * fee_bps / 10000) ∧
      price * fee_bps / 10000 + (price - price * fee_bps / 10000) = price)
    ∧ (∀ price fee_bps : Nat, U64 ≤ price * fee_bps →
      settle price fee_bps = Except.error (Err.prog MarketplaceError.Overflow))
    ∧ (∀ (s : Chain) (m : Marketplace) (listing : Listing) (e : Escrow)
        (buyer mint : Nat) (now : Int),
        s.marketplace = some m → getA s.listings mint = some listing →
        getA s.escrows mint = some e → listing.is_active = true →
        now < listing.expiration_time → buyer ≠ listing.seller →
        listing.is_auction = false → U64 ≤ listing.price * m.fee_bps →
        buy_nft s buyer mint now =
          Except.error (Err.prog MarketplaceError.Overflow))
    ∧ (∀ (s : Chain) (m : Marketplace) (listing : Listing) (e : Escrow)
        (offer : Offer) (oe : OfferEscrow) (offerer mint : Nat) (now : Int),
        s.marketplace = some m → getA s.listings mint = some listing →
        getA s.escrows mint = some e →
        getA s.offers (mint, offerer) = some offer →
        getA s.offerEscrows (mint, offerer) = some oe →
        listing.is_active = true → offer.is_active = true →
        now < offer.expiration_time → U64 ≤ offer.amount * m.fee_bps →
        accept_offer s listing.seller offerer mint now =
          Except.error (Err.prog MarketplaceError.Overflow)) := by
  refine ⟨?_, ?_, ?_, ?_⟩
  · intro price bps hp hb hm
    exact ⟨settle_ok price bps hb hm,
      Nat.add_sub_cancel' (fee_le_price price bps hb)⟩
  · exact settle_overflow
  · intro s m listing e buyer mint now hm hl he hact hexp hself hau hov
    simp [buy_nft, hm, hl, he, requireP, hact, hexp, hself, hau,
      settle_overflow _ _ hov]
  · intro s m listing e offer oe offerer mint now hm hl he ho hoe hact hoact
      hexp hov
    simp [accept_offer, hm, hl, he, ho, hoe, requireP, hact, hoact, hexp,
      settle_overflow _ _ hov]

/-- Witness for C1 at concrete inputs: the spec's 5%-fee scenario, a direct
overflow of `settle`, and overflowing `buy_nft` / `accept_offer` calls on
`bigChain`. -/
theorem settlement_fee_payout_correct_witness :
    (settle 1000000 500 =
        Except.ok (1000000 * 500 / 10000, 1000000 - 1000000 * 500 / 10000) ∧
      1000000 * 500 / 10000 + (1000000 - 1000000 * 500 / 10000) = 1000000) ∧
    settle (2 ^ 63) 1000 = Except.error (Err.prog MarketplaceError.Overflow) ∧
    buy_nft bigChain 3 7 0 =
      Except.error (Err.prog MarketplaceError.Overflow) ∧
    accept_offer bigChain 1 2 7 0 =
      Except.error (Err.prog MarketplaceError.Overflow) := by
  refine ⟨?_, ?_, ?_, ?_⟩
  · exact settlement_fee_payout_correct.1 1000000 500 (by norm_num)
      (by norm_num) (by norm_num [U64])
  · exact settlement_fee_payout_correct.2.1 (2 ^ 63) 1000 (by norm_num [U64])
  · exact settlement_fee_payout_correct.2.2.1 bigChain _ _ _ 3 7 0 rfl rfl rfl
      rfl (by norm_num) (by norm_num) rfl (by norm_num [U64])
  · exact settlement_fee_payout_correct.2.2.2 bigChain _ _ _ _ _ 2 7 0 rfl rfl
      rfl rfl rfl rfl rfl (by norm_num) (by norm_num [U64])

@[simp] theorem tok_ite (c : Prop) [Decidable c] (a b : Chain) (mint : Nat)
    (o : Addr) :
    Chain.tok (if c then a else b) mint o =
      if c then a.tok mint o else b.tok mint o := by
  split <;> rfl

@[simp] theorem bal_ite (c : Prop) [Decidable c] (a b : Chain) (x : Addr) :
    Chain.bal (if c then a else b) x =
      if c then a.bal x else b.bal x := by
  split <;> rfl

@[simp] theorem tokens_ite (c : Prop) [Decidable c] (a b : Chain) :
    Chain.tokens (if c then a else b) =
      if c then a.tokens else b.tokens := by
  split <;> rfl

@[simp] theorem lamports_ite (c : Prop) [Decidable c] (a b : Chain) :
    Chain.lamports (if c then a else b) =
      if c then a.lamports else b.lamports := by
  split <;> rfl

@[simp] theorem listings_ite (c : Prop) [Decidable c] (a b : Chain) :
    Chain.listings (if c then a else b) =
      if c then a.listings else b.listings := by
  split <;> rfl

@[simp] theorem offers_ite (c : Prop) [Decidable c] (a b : Chain) :
    Chain.offers (if c then a else b) =
      if c then a.offers else b.offers := by
  split <;> rfl

@[simp] theorem offerEscrows_ite (c : Prop) [Decidable c] (a b : Chain) :
    Chain.offerEscrows (if c then a else b) =
      if c then a.offerEscrows else b.offerEscrows := by
  split <;> rfl

@[simp] theorem escrows_ite (c : Prop) [Decidable c] (a b : Chain) :
    Chain.escrows (if c then a else b) =
      if c then a.escrows else b.escrows := by
  split <;> rfl

@[simp] theorem marketplace_ite (c : Prop) [Decidable c] (a b : Chain) :
    Chain.marketplace (if c then a else b) =
      if c then a.marketplace else b.marketplace := by
  split <;> rfl

/-- C4: `accept_offer` validates only the Offer's expiration time, never the
Listing's.  With both records active, the caller equal to the listing's
seller, and the escrow/settlement side conditions satisfied, the call
succeeds exactly when `now < offer.expiration_time` — the statement imposes
no constraint relating `now` to `listing.expiration_time`, so acceptance
succeeds even at or past the Listing's own expiration (the witness
instantiates exactly that situation) — and it fails with `OfferExpired`
exactly when `offer.expiration_time ≤ now`. -/
theorem accept_offer_checks_only_offer_expiration
    (s : Chain) (m : Marketplace) (listing : Listing) (e : Escrow)
    (offer : Offer) (oe : OfferEscrow) (offerer mint : Nat) (now : Int)
    (hm : s.marketplace = some m) (hl : getA s.listings mint = some listing)
    (he : getA s.escrows mint = some e)
    (ho : getA s.offers (mint, offerer) = some offer)
    (hoe : getA s.offerEscrows (mint, offerer) = some oe)
    (hact : listing.is_active = true) (hoact : offer.is_active = true)
    (hb : m.fee_bps ≤ 1000) (hmul : offer.amount * m.fee_bps < U64)
    (hbal : offer.amount ≤ s.bal (Addr.offerEscrowPda mint offerer))
    (htok : 1 ≤ s.tok mint (Addr.escrowPda mint)) :
    (isOkE (accept_offer s listing.seller offerer mint now) = true ↔
      now < offer.expiration_time) ∧
    (offer.expiration_time ≤ now →
      accept_offer s listing.seller offerer mint now =
        Except.error (Err.prog MarketplaceError.OfferExpired)) := by
  have hexpired : offer.expiration_time ≤ now →
      accept_offer s listing.seller offerer mint now =
        Except.error (Err.prog MarketplaceError.OfferExpired) := by
    intro hle
    have hn : ¬ now < offer.expiration_time := not_lt.mpr hle
    simp [accept_offer, hm, hl, he, ho, hoe, requireP, hact, hoact, hn]
  refine ⟨⟨?_, ?_⟩, hexpired⟩
  · intro hOk
    by_contra hnot
    rw [hexpired (not_lt.1 hnot)] at hOk
    exact Bool.noConfusion hOk
  · intro hnow
    simp only [Chain.bal, getDA] at hbal
    simp only [Chain.tok, getDA] at htok
    simp [accept_offer, hm, hl, he, ho, hoe, requireP, hact, hoact, hnow,
      settle_ok _ _ hb hmul, debit, credit, transferTokens, bumpA, Chain.bal,
      Chain.tok, getDA, hbal, htok]

/-- Witness for C4: in `offerChain` the listing expires at 86400 and the
offer at 100000; at time 90000 the listing is already expired, yet
acceptance succeeds, and the failure case is `OfferExpired` exactly when the
offer itself has expired. -/
theorem accept_offer_checks_only_offer_expiration_witness :
    ((isOkE (accept_offer offerChain 1 2 7 90000) = true ↔
        (90000 : Int) < 100000) ∧
      ((100000 : Int) ≤ 90000 →
        accept_offer offerChain 1 2 7 90000 =
          Except.error (Err.prog MarketplaceError.OfferExpired))) ∧
    (getA offerChain.listings 7).map Listing.expiration_time = some 86400 ∧
    (86400 : Int) ≤ 90000 := by
  refine ⟨?_, by decide, by decide⟩
  exact accept_offer_checks_only_offer_expiration offerChain _ _ _ _ _ 2 7
    90000 rfl rfl rfl rfl rfl rfl rfl (by decide) (by decide) (by decide)
    (by decide)

/-- C6 counterexample: the claim says a self-trade `buy_nft` fails with
`CannotBuyOwnListing` regardless of listing state, but on an inactive
listing (here: after a completed sale) the buyer-equals-seller call fails
with `ListingNotActive` instead, because the active-flag check precedes the
self-trade check. -/
theorem buy_self_trade_counterexample :
    (getA boughtChain.listings 7).map Listing.seller = some 1 ∧
    (getA boughtChain.listings 7).map Listing.is_active = some false ∧
    buy_nft boughtChain 1 7 5 =
      Except.error (Err.prog MarketplaceError.ListingNotActive) ∧
    buy_nft boughtChain 1 7 5 ≠
      Except.error (Err.prog MarketplaceError.CannotBuyOwnListing) := by
  exact ⟨by decide, by decide, by decide, by decide⟩

/-- C6 (amended): a `buy_nft` call whose buyer equals the listing's stored
seller never succeeds, but the reported error depends on listing state: it
is `CannotBuyOwnListing` only when the listing is active and unexpired;
an inactive listing fails first with `ListingNotActive` and an active but
expired one with `ListingExpired`. -/
theorem buy_self_trade_never_succeeds
    (s : Chain) (m : Marketplace) (listing : Listing) (e : Escrow)
    (mint : Nat) (now : Int)
    (hm : s.marketplace = some m) (hl : getA s.listings mint = some listing)
    (he : getA s.escrows mint = some e) :
    buy_nft s listing.seller mint now =
      Except.error (Err.prog
        (if listing.is_active = false then MarketplaceError.ListingNotActive
          else if listing.expiration_time ≤ now then
            MarketplaceError.ListingExpired
          else MarketplaceError.CannotBuyOwnListing)) := by
  by_cases hact : listing.is_active = true
  · have h1 : ¬ listing.is_active = false := by simp [hact]
    by_cases hexp : now < listing.expiration_time
    · have h2 : ¬ listing.expiration_time ≤ now := not_le.mpr hexp
      simp [buy_nft, hm, hl, he, requireP, hact, hexp, h1, h2]
    · have h2 : listing.expiration_time ≤ now := not_lt.1 hexp
      simp [buy_nft, hm, hl, he, requireP, hact, hexp, h1, h2]
  · have h0 : listing.is_active = false := by
      cases hh : listing.is_active
      · rfl
      · exact absurd hh hact
    simp [buy_nft, hm, hl, he, requireP, h0]

/-- Witness for the amended C6 at concrete states: inactive listing gives
`ListingNotActive`, active-and-current gives `CannotBuyOwnListing`, active
but expired gives `ListingExpired`. -/
theorem buy_self_trade_never_succeeds_witness :
    buy_nft boughtChain 1 7 5 =
      Except.error (Err.prog MarketplaceError.ListingNotActive) ∧
    buy_nft listedChain 1 7 5 =
      Except.error (Err.prog MarketplaceError.CannotBuyOwnListing) ∧
    buy_nft listedChain 1 7 90000 =
      Except.error (Err.prog MarketplaceError.ListingExpired) := by
  refine ⟨?_, ?_, ?_⟩
  · have h := buy_self_trade_never_succeeds boughtChain _ _ _ 7 5 rfl rfl rfl
    simpa using h
  · have h := buy_self_trade_never_succeeds listedChain _ _ _ 7 5 rfl rfl rfl
    simpa using h
  · have h := buy_self_trade_never_succeeds listedChain _ _ _ 7 90000 rfl rfl
      rfl
    simpa using h

/-- C7: `list_nft` fails with `MarketplacePaused` when paused, with
`PriceMustBePositive` when `price = 0`, with `DurationTooShort` when
`duration < 86400` (so `duration = 3600` fails), with `ListingNotActive`
when the existing Listing record at the asset's address is still active, and
with `SellerDoesNotOwnNft` when the seller's token balance is not exactly 1;
on success it sets `expiration_time = now + duration`, sets
`is_active = true`, and increments the global `listing_count` by 1. -/
theorem list_nft_validation_and_effects
    (s : Chain) (m : Marketplace) (seller mint price : Nat) (duration : Int)
    (au : Bool) (now : Int) (hm : s.marketplace = some m) :
    (m.paused = true →
      list_nft s seller mint price duration au now =
        Except.error (Err.prog MarketplaceError.MarketplacePaused)) ∧
    (m.paused = false → price = 0 →
      list_nft s seller mint price duration au now =
        Except.error (Err.prog MarketplaceError.PriceMustBePositive)) ∧
    (m.paused = false → 0 < price → duration < 86400 →
      list_nft s seller mint price duration au now =
        Except.error (Err.prog MarketplaceError.DurationTooShort)) ∧
    (m.paused = false → 0 < price → 86400 ≤ duration →
      (getDA s.listings mint Listing.blank).is_active = true →
      list_nft s seller mint price duration au now =
        Except.error (Err.prog MarketplaceError.ListingNotActive)) ∧
    (m.paused = false → 0 < price → 86400 ≤ duration →
      (getDA s.listings mint Listing.blank).is_active = false →
      s.tok mint (Addr.user seller) ≠ 1 →
      list_nft s seller mint price duration au now =
        Except.error (Err.prog MarketplaceError.SellerDoesNotOwnNft)) ∧
    (m.paused = false → 0 < price → 86400 ≤ duration →
      (getDA s.listings mint Listing.blank).is_active = false →
      s.tok mint (Addr.user seller) = 1 →
      I64Min ≤ now + duration → now + duration ≤ I64Max →
      m.listing_count + 1 < U64 →
      isOkE (list_nft s seller mint price duration au now) = true ∧
      ∀ s', list_nft s seller mint price duration au now = Except.ok s' →
        getA s'.listings mint = some
          { seller := seller, nft_mint := mint, price := price,
            expiration_time := now + duration, is_active := true,
            is_auction := au, highest_bid := 0, highest_bidder := 0,
            created_at := now } ∧
        s'.marketplace =
          some { m with listing_count := m.listing_count + 1 }) := by
  refine ⟨?_, ?_, ?_, ?_, ?_, ?_⟩
  · intro hp
    simp [list_nft, hm, requireP, hp]
  · intro hp hz
    simp [list_nft, hm, requireP, hp, hz]
  · intro hp hpr hd
    have hd2 : ¬ duration ≥ 86400 := not_le.mpr hd
    simp [list_nft, hm, requireP, hp, hpr, hd2]
  · intro hp hpr hd hina
    simp [list_nft, hm, requireP, hp, hpr, hd, hina]
  · intro hp hpr hd hina htok
    simp [list_nft, hm, requireP, hp, hpr, hd, hina, htok]
  · intro hp hpr hd hina htok hmin hmax hcount
    have htok1 : (getA s.tokens (mint, Addr.user seller)).getD 0 = 1 := htok
    have hina1 : ((getA s.listings mint).getD Listing.blank).is_active =
        false := hina
    constructor
    · simp [list_nft, hm, requireP, hp, hpr, hd, hina, hina1, htok,
        checkedAddI64, checkedAddU64, hmin, hmax, hcount, transferTokens,
        Chain.tok, getDA, htok1]
    · intro s' heq
      simp [list_nft, hm, requireP, hp, hpr, hd, hina, hina1, htok,
        checkedAddI64, checkedAddU64, hmin, hmax, hcount, transferTokens,
        Chain.tok, getDA, htok1] at heq
      cases heq
      constructor
      · simp
      · simp [hp]

/-- Witness for C7 at concrete states: each failure mode (including the
spec's `duration = 3600` scenario) and a successful listing with its
effects. -/
theorem list_nft_validation_and_effects_witness :
    list_nft pausedChain 1 7 100 86400 false 0 =
      Except.error (Err.prog MarketplaceError.MarketplacePaused) ∧
    list_nft initChain 1 7 0 86400 false 0 =
      Except.error (Err.prog MarketplaceError.PriceMustBePositive) ∧
    list_nft initChain 1 7 100 3600 false 0 =
      Except.error (Err.prog MarketplaceError.DurationTooShort) ∧
    list_nft listedChain 1 7 100 86400 false 0 =
      Except.error (Err.prog MarketplaceError.ListingNotActive) ∧
    list_nft initChain 2 7 100 86400 false 0 =
      Except.error (Err.prog MarketplaceError.SellerDoesNotOwnNft) ∧
    isOkE (list_nft initChain 1 7 100 86400 false 0) = true ∧
    (∀ s', list_nft initChain 1 7 100 86400 false 0 = Except.ok s' →
      getA s'.listings 7 = some
        { seller := 1, nft_mint := 7, price := 100,
          expiration_time := 0 + 86400, is_active := true,
          is_auction := false, highest_bid := 0, highest_bidder := 0,
          created_at := 0 } ∧
      s'.marketplace = some
        { admin := 10, fee_recipient := 11, fee_bps := 500, paused := false,
          listing_count := 0 + 1 }) := by
  refine ⟨?_, ?_, ?_, ?_, ?_, ?_, ?_⟩
  · exact (list_nft_validation_and_effects pausedChain _ 1 7 100 86400 false
      0 rfl).1 rfl
  · exact (list_nft_validation_and_effects initChain _ 1 7 0 86400 false
      0 rfl).2.1 rfl rfl
  · exact (list_nft_validation_and_effects initChain _ 1 7 100 3600 false
      0 rfl).2.2.1 rfl (by norm_num) (by norm_num)
  · exact (list_nft_validation_and_effects listedChain _ 1 7 100 86400 false
      0 rfl).2.2.2.1 rfl (by norm_num) (by norm_num) (by decide)
  · exact (list_nft_validation_and_effects initChain _ 2 7 100 86400 false
      0 rfl).2.2.2.2.1 rfl (by norm_num) (by norm_num) (by decide) (by decide)
  · exact ((list_nft_validation_and_effects initChain _ 1 7 100 86400 false
      0 rfl).2.2.2.2.2 rfl (by norm_num) (by norm_num) (by decide) (by decide)
      (by decide) (by decide) (by decide)).1
  · exact ((list_nft_validation_and_effects initChain _ 1 7 100 86400 false
      0 rfl).2.2.2.2.2 rfl (by norm_num) (by norm_num) (by decide) (by decide)
      (by decide) (by decide) (by decide)).2

/-- C5: record-lifecycle asymmetry.  A successful `buy_nft` or
`accept_offer` retains the Listing record at its address with
`is_active = false`; after a purchase, the new owner can list the same asset
again at the same address (given valid parameters); a successful
`cancel_listing` destroys the Listing record entirely. -/
theorem listing_retained_after_sale_destroyed_on_cancel :
    (∀ (s s' : Chain) (buyer mint : Nat) (now : Int),
      buy_nft s buyer mint now = Except.ok s' →
      ∃ l, getA s.listings mint = some l ∧
        getA s'.listings mint = some { l with is_active := false }) ∧
    (∀ (s s' : Chain) (seller offerer mint : Nat) (now : Int),
      accept_offer s seller offerer mint now = Except.ok s' →
      ∃ l, getA s.listings mint = some l ∧
        getA s'.listings mint = some { l with is_active := false }) ∧
    (∀ (s s' : Chain) (mp : Marketplace) (buyer mint price2 : Nat)
      (now duration2 now2 : Int),
      buy_nft s buyer mint now = Except.ok s' →
      s.marketplace = some mp → mp.paused = false →
      mp.listing_count + 1 < U64 →
      0 < price2 → (86400 : Int) ≤ duration2 →
      s.tok mint (Addr.user buyer) = 0 →
      I64Min ≤ now2 + duration2 → now2 + duration2 ≤ I64Max →
      isOkE (list_nft s' buyer mint price2 duration2 false now2) = true) ∧
    (∀ (s s' : Chain) (auth mint : Nat),
      cancel_listing s auth mint = Except.ok s' →
      getA s'.listings mint = none) := by
  refine ⟨?_, ?_, ?_, ?_⟩
  · intro s s' buyer mint now h
    obtain ⟨-, -, -, -, l, hl, -, hl', -⟩ := buy_nft_ok h
    exact ⟨l, hl, hl'⟩
  · intro s s' seller offerer mint now h
    obtain ⟨-, -, -, -, -, l, hl, -, hl'⟩ := accept_offer_ok h
    exact ⟨l, hl, hl'⟩
  · intro s s' mp buyer mint price2 now duration2 now2 h hmp hpause hcount
      hpr hd htok0 hmin hmax
    obtain ⟨hm', -, -, -, l, hl, hact, hl', htokb⟩ := buy_nft_ok h
    have hm'' : s'.marketplace = some mp := hm'.trans hmp
    have hina1 : ((getA s'.listings mint).getD Listing.blank).is_active =
        false := by
      simp [hl']
    have htok' : (getA s'.tokens (mint, Addr.user buyer)).getD 0 = 1 := by
      have : s'.tok mint (Addr.user buyer) = 1 := by
        rw [htokb]
        simp [htok0]
      exact this
    simp [list_nft, hm'', requireP, hpause, hpr, hd, hina1, htok',
      checkedAddI64, checkedAddU64, hmin, hmax, hcount, transferTokens,
      Chain.tok, getDA]
  · intro s s' auth mint h
    exact (cancel_listing_ok h).2.2.2

/-- Witness for C5 on the concrete create → sell → relist cycle around
mint 7, plus an explicit cancellation destroying the record. -/
theorem listing_retained_after_sale_destroyed_on_cancel_witness :
    (∃ l, getA listedChain.listings 7 = some l ∧
      getA boughtChain.listings 7 = some { l with is_active := false }) ∧
    (∃ l, getA offerChain.listings 7 = some l ∧
      getA acceptedChain.listings 7 = some { l with is_active := false }) ∧
    isOkE (list_nft boughtChain 3 7 100 86400 false 10) = true ∧
    getA cancelledChain.listings 7 = none := by
  refine ⟨?_, ?_, ?_, ?_⟩
  · exact listing_retained_after_sale_destroyed_on_cancel.1 listedChain
      boughtChain 3 7 5 rfl
  · exact listing_retained_after_sale_destroyed_on_cancel.2.1 offerChain
      acceptedChain 1 2 7 10 rfl
  · exact listing_retained_after_sale_destroyed_on_cancel.2.2.1 listedChain
      boughtChain _ 3 7 100 5 86400 10 rfl rfl rfl (by decide) (by decide)
      (by decide) (by decide) (by decide) (by decide)
  · exact listing_retained_after_sale_destroyed_on_cancel.2.2.2 listedChain
      cancelledChain 1 7 rfl

/-- C8: a first `cancel_offer` by the stored offerer on an active offer
(whose escrow holds exactly the offer's amount) succeeds, refunds the full
amount escrow → offerer, and destroys both the Offer and OfferEscrow
records; a second `cancel_offer` on the same pair then fails because the
records no longer exist. -/
theorem cancel_offer_refunds_then_second_fails
    (s : Chain) (offer : Offer) (oe : OfferEscrow) (offerer mint : Nat)
    (ho : getA s.offers (mint, offerer) = some offer)
    (hoe : getA s.offerEscrows (mint, offerer) = some oe)
    (hown : offerer = offer.offerer) (hact : offer.is_active = true)
    (hbal : s.bal (Addr.offerEscrowPda mint offerer) = offer.amount) :
    ∃ s', cancel_offer s offerer mint = Except.ok s' ∧
      s'.bal (Addr.user offerer) =
        s.bal (Addr.user offerer) + offer.amount ∧
      getA s'.offers (mint, offerer) = none ∧
      getA s'.offerEscrows (mint, offerer) = none ∧
      cancel_offer s' offerer mint = Except.error Err.accountNotFound := by
  subst hown
  have hbal1 : (getA s.lamports
      (Addr.offerEscrowPda mint offer.offerer)).getD 0 = offer.amount := hbal
  have hOk : isOkE (cancel_offer s offer.offerer mint) = true := by
    simp [cancel_offer, requireP, ho, hoe, hact, debit, credit, bumpA,
      Chain.bal, getDA, hbal1]
  obtain ⟨s', heq⟩ := isOkE_exists hOk
  obtain ⟨-, hof, hoen, hbe, -, hu, -, -⟩ := cancel_offer_ok heq
  refine ⟨s', heq, ?_, ?_, hoen, ?_⟩
  · rw [hu, hbal]
  · rw [hof]
    simp
  · have hon : getA s'.offers (mint, offer.offerer) = none := by
      rw [hof]
      simp
    simp [cancel_offer, hon]

/-- Witness for C8: cancelling wallet 2's offer on mint 7 refunds amount 5
and destroys both records; the second cancellation fails. -/
theorem cancel_offer_refunds_then_second_fails_witness :
    ∃ s', cancel_offer offerChain 2 7 = Except.ok s' ∧
      s'.bal (Addr.user 2) = offerChain.bal (Addr.user 2) + 5 ∧
      getA s'.offers (7, 2) = none ∧
      getA s'.offerEscrows (7, 2) = none ∧
      cancel_offer s' 2 7 = Except.error Err.accountNotFound := by
  exact cancel_offer_refunds_then_second_fails offerChain _ _ 2 7 rfl rfl
    (by decide) (by decide) (by decide)

/-- C10: `make_offer` imposes no minimum or positivity constraint on its
`duration`: for every duration — zero and negative included — whose sum with
the current time stays in `i64` range, the call (with otherwise valid
inputs) succeeds and records `expiration_time = now + duration`, so an offer
can be born already expired; only i64 overflow of `now + duration` aborts,
with `Overflow`. -/
theorem make_offer_no_duration_floor
    (s : Chain) (m : Marketplace) (listing : Listing)
    (offerer mint amount : Nat) (duration now : Int)
    (hm : s.marketplace = some m) (hl : getA s.listings mint = some listing)
    (hp : m.paused = false) (ha : 0 < amount)
    (hact : listing.is_active = true) (hne : offerer ≠ listing.seller)
    (hfund : amount ≤ s.bal (Addr.user offerer)) :
    (I64Min ≤ now + duration → now + duration ≤ I64Max →
      ∃ s', make_offer s offerer mint amount duration now = Except.ok s' ∧
        getA s'.offers (mint, offerer) = some
          { offerer := offerer, nft_mint := mint, amount := amount,
            expiration_time := now + duration, is_active := true,
            created_at := now }) ∧
    (¬ (I64Min ≤ now + duration ∧ now + duration ≤ I64Max) →
      make_offer s offerer mint amount duration now =
        Except.error (Err.prog MarketplaceError.Overflow)) := by
  constructor
  · intro hmin hmax
    have hfund1 : amount ≤ (getA s.lamports (Addr.user offerer)).getD 0 :=
      hfund
    have hOk : isOkE (make_offer s offerer mint amount duration now) =
        true := by
      simp [make_offer, hm, hl, requireP, hp, ha, hact, hne, checkedAddI64,
        hmin, hmax, transferLamports, bumpA, Chain.bal, getDA, hfund1]
    obtain ⟨s', heq⟩ := isOkE_exists hOk
    obtain ⟨-, ⟨exp, hexp, hof⟩, -, -⟩ := make_offer_ok heq
    have hexp' : exp = now + duration := by
      simp [checkedAddI64, hmin, hmax] at hexp
      omega
    refine ⟨s', heq, ?_⟩
    rw [hof, hexp']
    simp
  · intro hrange
    simp [make_offer, hm, hl, requireP, hp, ha, hact, hne, checkedAddI64,
      hrange]

/-- Witness for C10: at time 100 a duration of −50 yields an offer that is
already expired (`expiration_time = 50 < 100`), while a duration pushing the
sum past `i64::MAX` aborts with `Overflow`. -/
theorem make_offer_no_duration_floor_witness :
    (∃ s', make_offer listedChain 2 7 5 (-50) 100 = Except.ok s' ∧
      getA s'.offers (7, 2) = some
        { offerer := 2, nft_mint := 7, amount := 5,
          expiration_time := 100 + (-50), is_active := true,
          created_at := 100 }) ∧
    (100 : Int) + (-50) < 100 ∧
    make_offer listedChain 2 7 5 I64Max 1 =
      Except.error (Err.prog MarketplaceError.Overflow) := by
  refine ⟨?_, by norm_num, ?_⟩
  · exact (make_offer_no_duration_floor listedChain _ _ 2 7 5 (-50) 100 rfl
      rfl rfl (by decide) (by decide) (by decide) (by decide)).1 (by decide)
      (by decide)
  · exact (make_offer_no_duration_floor listedChain _ _ 2 7 5 I64Max 1 rfl
      rfl rfl (by decide) (by decide) (by decide) (by decide)).2 (by decide)

theorem feeInv_of_eq {s s' : Chain} (h : s'.marketplace = s.marketplace)
    (hinv : feeInv s) : feeInv s' := by
  intro m hm
  exact hinv m (h.symm.trans hm)

/-- C9: the configuration's `fee_bps` is at most 1000 after every operation:
`initialize_marketplace` rejects `fee_bps > 1000` with `FeeTooHigh`,
`update_fee` rejects `new_fee_bps > 1000` with `FeeTooHigh`, and no entry
point other than those two ever writes `fee_bps`. -/
theorem fee_cap_invariant :
    (∀ (s s' : Chain) (op : Op), feeInv s → step s op = Except.ok s' →
      feeInv s') ∧
    (∀ (s : Chain) (a f bps : Nat), s.marketplace = none → 1000 < bps →
      initialize_marketplace s a f bps =
        Except.error (Err.prog MarketplaceError.FeeTooHigh)) ∧
    (∀ (s : Chain) (m : Marketplace) (a bps : Nat),
      s.marketplace = some m → 1000 < bps →
      update_fee s a bps =
        Except.error (Err.prog MarketplaceError.FeeTooHigh)) ∧
    (∀ (s s' : Chain) (op : Op), writesFeeBps op = false →
      step s op = Except.ok s' →
      Option.map Marketplace.fee_bps s'.marketplace =
        Option.map Marketplace.fee_bps s.marketplace) := by
  refine ⟨?_, ?_, ?_, ?_⟩
  · intro s s' op hinv h
    cases op <;> simp only [step] at h
    · obtain ⟨-, -, hle, hmk⟩ := initialize_ok h
      intro m hm
      rw [hmk] at hm
      cases hm
      exact hle
    · obtain ⟨-, -, m0, c, hm0, hmk⟩ := list_nft_ok h
      intro m hm
      rw [hmk] at hm
      cases hm
      exact hinv m0 hm0
    · exact feeInv_of_eq (cancel_listing_ok h).1 hinv
    · exact feeInv_of_eq (buy_nft_ok h).1 hinv
    · exact feeInv_of_eq (make_offer_ok h).1 hinv
    · exact feeInv_of_eq (cancel_offer_ok h).1 hinv
    · exact feeInv_of_eq (accept_offer_ok h).1 hinv
    · exact feeInv_of_eq (update_price_ok h).1 hinv
    · obtain ⟨-, -, m0, hm0, hmk⟩ := pause_ok h
      intro m hm
      rw [hmk] at hm
      cases hm
      exact hinv m0 hm0
    · obtain ⟨-, -, m0, hm0, hmk⟩ := unpause_ok h
      intro m hm
      rw [hmk] at hm
      cases hm
      exact hinv m0 hm0
    · obtain ⟨-, -, hle, m0, hm0, hmk⟩ := update_fee_ok h
      intro m hm
      rw [hmk] at hm
      cases hm
      exact hle
    · obtain ⟨-, -, m0, hm0, hmk⟩ := update_fee_recipient_ok h
      intro m hm
      rw [hmk] at hm
      cases hm
      exact hinv m0 hm0
    · exact feeInv_of_eq (emergency_withdraw_ok h).2.1 hinv
  · intro s a f bps hm hbps
    have : ¬ bps ≤ 1000 := not_le.mpr hbps
    simp [initialize_marketplace, hm, requireP, this]
  · intro s m a bps hm hbps
    have : ¬ bps ≤ 1000 := not_le.mpr hbps
    simp [update_fee, hm, requireP, this]
  · intro s s' op hw h
    cases op <;> simp only [step] at h <;> simp only [writesFeeBps] at hw
    · exact Bool.noConfusion hw
    · obtain ⟨-, -, m0, c, hm0, hmk⟩ := list_nft_ok h
      rw [hmk, hm0]
      rfl
    · rw [(cancel_listing_ok h).1]
    · rw [(buy_nft_ok h).1]
    · rw [(make_offer_ok h).1]
    · rw [(cancel_offer_ok h).1]
    · rw [(accept_offer_ok h).1]
    · rw [(update_price_ok h).1]
    · obtain ⟨-, -, m0, hm0, hmk⟩ := pause_ok h
      rw [hmk, hm0]
      rfl
    · obtain ⟨-, -, m0, hm0, hmk⟩ := unpause_ok h
      rw [hmk, hm0]
      rfl
    · exact Bool.noConfusion hw
    · obtain ⟨-, -, m0, hm0, hmk⟩ := update_fee_recipient_ok h
      rw [hmk, hm0]
      rfl
    · rw [(emergency_withdraw_ok h).2.1]

/-- Witness for C9: the invariant transports across a concrete
initialization; the two rejections fire at `fee_bps = 5000`; and a purchase
leaves `fee_bps` untouched. -/
theorem fee_cap_invariant_witness :
    feeInv initChain ∧
    initialize_marketplace genesis 10 11 5000 =
      Except.error (Err.prog MarketplaceError.FeeTooHigh) ∧
    update_fee initChain 10 5000 =
      Except.error (Err.prog MarketplaceError.FeeTooHigh) ∧
    Option.map Marketplace.fee_bps boughtChain.marketplace =
      Option.map Marketplace.fee_bps listedChain.marketplace := by
  refine ⟨?_, ?_, ?_, ?_⟩
  · refine fee_cap_invariant.1 genesis initChain (Op.initMarketplace 10 11 500)
      ?_ rfl
    intro m hm
    simp [genesis] at hm
  · exact fee_cap_invariant.2.1 genesis 10 11 5000 rfl (by norm_num)
  · exact fee_cap_invariant.2.2.1 initChain _ 10 5000 rfl (by norm_num)
  · exact fee_cap_invariant.2.2.2 listedChain boughtChain (Op.buyNft 3 7 5)
      rfl rfl

theorem offerEscrowInv_congr {s s' : Chain} (hof : s'.offers = s.offers)
    (hb : ∀ mint off : Nat, s'.bal (Addr.offerEscrowPda mint off) =
      s.bal (Addr.offerEscrowPda mint off))
    (hinv : offerEscrowInv s) : offerEscrowInv s' := by
  intro mint off
  rw [hb, hof]
  exact hinv mint off

theorem offerEscrowInv_congr_lam {s s' : Chain} (hof : s'.offers = s.offers)
    (hl : s'.lamports = s.lamports) (hinv : offerEscrowInv s) :
    offerEscrowInv s' := by
  refine offerEscrowInv_congr hof ?_ hinv
  intro mint off
  simp [Chain.bal, getDA, hl]

theorem offerEscrowInv_of_close {s s' : Chain} {mint offerer : Nat}
    (hof : s'.offers = delA s.offers (mint, offerer))
    (hz : s'.bal (Addr.offerEscrowPda mint offerer) = 0)
    (hb : ∀ mint2 off2 : Nat, (mint2, off2) ≠ (mint, offerer) →
      s'.bal (Addr.offerEscrowPda mint2 off2) =
        s.bal (Addr.offerEscrowPda mint2 off2))
    (hinv : offerEscrowInv s) : offerEscrowInv s' := by
  intro mint2 off2
  by_cases hpair : (mint2, off2) = (mint, offerer)
  · injection hpair with h1 h2
    subst h1
    subst h2
    rw [hz, hof]
    simp
  · rw [hb mint2 off2 hpair, hof, getA_delA_ne _ hpair]
    exact hinv mint2 off2

/-- C2 counterexample: the claim asserts that after every operation an
active Offer's escrow balance equals its `amount`, in particular after a
`make_offer` overwriting an outstanding active offer; but after wallet 2
re-offers amount 3 over its still-active amount-5 offer, the escrow holds
5 + 3 = 8 while the Offer records amount 3. -/
theorem offer_escrow_invariant_counterexample :
    step offerChain (Op.makeOffer 2 7 3 1000 0) =
      Except.ok doubleOfferChain ∧
    (getA offerChain.offers (7, 2)).map Offer.is_active = some true ∧
    (getA doubleOfferChain.offers (7, 2)).map Offer.is_active = some true ∧
    (getA doubleOfferChain.offers (7, 2)).map Offer.amount = some 3 ∧
    doubleOfferChain.bal (Addr.offerEscrowPda 7 2) = 8 ∧
    doubleOfferChain.bal (Addr.offerEscrowPda 7 2) ≠ 3 := by
  exact ⟨by decide, by decide, by decide, by decide, by decide, by decide⟩

/-- C2 (amended): the escrow-balance invariant — every active Offer's escrow
holds exactly the Offer's `amount` (and 0 where no active Offer exists) — is
preserved by every operation except a `make_offer` that overwrites a pair
with an active Offer outstanding; such an overwrite instead adds the new
amount on top of the old escrow balance while the Offer records only the new
amount, stranding the previously escrowed funds. -/
theorem offer_escrow_invariant_amended :
    (∀ (s s' : Chain) (op : Op), offerEscrowInv s →
      overwritesActiveOffer s op = false → step s op = Except.ok s' →
      offerEscrowInv s') ∧
    (∀ (s s' : Chain) (offerer mint amount : Nat) (duration now : Int)
      (old : Offer), getA s.offers (mint, offerer) = some old →
      old.is_active = true →
      make_offer s offerer mint amount duration now = Except.ok s' →
      s'.bal (Addr.offerEscrowPda mint offerer) =
        s.bal (Addr.offerEscrowPda mint offerer) + amount ∧
      ∃ o', getA s'.offers (mint, offerer) = some o' ∧
        o'.amount = amount ∧ o'.is_active = true) := by
  constructor
  · intro s s' op hinv hno h
    cases op <;> simp only [step] at h
    · obtain ⟨hof, hl, -, -⟩ := initialize_ok h
      exact offerEscrowInv_congr_lam hof hl hinv
    · obtain ⟨hof, hl, -⟩ := list_nft_ok h
      exact offerEscrowInv_congr_lam hof hl hinv
    · obtain ⟨-, hof, hl, -⟩ := cancel_listing_ok h
      exact offerEscrowInv_congr_lam hof hl hinv
    · obtain ⟨-, hof, -, hb, -⟩ := buy_nft_ok h
      refine offerEscrowInv_congr hof ?_ hinv
      intro mint off
      exact hb _ (by simp)
    · rename_i offerer mint amount duration now
      obtain ⟨-, ⟨exp, hexp, hof⟩, hbal, hbne⟩ := make_offer_ok h
      intro mint2 off2
      by_cases hpair : (mint2, off2) = (mint, offerer)
      · injection hpair with h1 h2
        subst h1
        subst h2
        have h0 : s.bal (Addr.offerEscrowPda mint2 off2) = 0 := by
          have hh := hinv mint2 off2
          simp only [overwritesActiveOffer] at hno
          cases hold : getA s.offers (mint2, off2) with
          | none =>
              rw [hold] at hh
              exact hh
          | some o =>
              rw [hold] at hh hno
              simp at hno
              simp [hno] at hh
              exact hh
        rw [hbal, h0, hof]
        simp
      · rw [hbne mint2 off2 hpair, hof, getA_setA_ne _ _ hpair]
        exact hinv mint2 off2
    · obtain ⟨-, hof, -, hz, hb, -, -, -⟩ := cancel_offer_ok h
      exact offerEscrowInv_of_close hof hz hb hinv
    · obtain ⟨-, hof, -, hz, hb, -⟩ := accept_offer_ok h
      exact offerEscrowInv_of_close hof hz hb hinv
    · obtain ⟨-, hof, hl⟩ := update_price_ok h
      exact offerEscrowInv_congr_lam hof hl hinv
    · obtain ⟨hof, hl, -⟩ := pause_ok h
      exact offerEscrowInv_congr_lam hof hl hinv
    · obtain ⟨hof, hl, -⟩ := unpause_ok h
      exact offerEscrowInv_congr_lam hof hl hinv
    · obtain ⟨hof, hl, -⟩ := update_fee_ok h
      exact offerEscrowInv_congr_lam hof hl hinv
    · obtain ⟨hof, hl, -⟩ := update_fee_recipient_ok h
      exact offerEscrowInv_congr_lam hof hl hinv
    · obtain ⟨hof, -, hb⟩ := emergency_withdraw_ok h
      refine offerEscrowInv_congr hof ?_ hinv
      intro mint off
      exact hb _ (by simp) (by simp)
  · intro s s' offerer mint amount duration now old hold holdact h
    obtain ⟨-, ⟨exp, hexp, hof⟩, hbal, -⟩ := make_offer_ok h
    refine ⟨hbal,
      ⟨{ offerer := offerer, nft_mint := mint, amount := amount,
          expiration_time := exp, is_active := true, created_at := now },
        ?_, rfl, rfl⟩⟩
    rw [hof]
    simp

/-- Witness for the amended C2: the invariant holds in `listedChain` and is
transported through the non-overwriting first offer; the overwriting second
offer lands in the flagged exception case, with escrow balance
`5 + 3` against a recorded amount of `3`. -/
theorem offer_escrow_invariant_amended_witness :
    offerEscrowInv offerChain ∧
    (doubleOfferChain.bal (Addr.offerEscrowPda 7 2) =
      offerChain.bal (Addr.offerEscrowPda 7 2) + 3 ∧
    ∃ o', getA doubleOfferChain.offers (7, 2) = some o' ∧
      o'.amount = 3 ∧ o'.is_active = true) := by
  constructor
  · refine offer_escrow_invariant_amended.1 listedChain offerChain
      (Op.makeOffer 2 7 5 100000 0) ?_ (by decide) rfl
    intro mint off
    rfl
  · exact offer_escrow_invariant_amended.2 offerChain doubleOfferChain 2 7 3
      1000 0 _ rfl rfl rfl

theorem update_price_pause_insensitive (s : Chain) (b : Bool)
    (seller mint p : Nat) :
    update_price (setPaused s b) seller mint p =
      Except.map (fun t => setPaused t b) (update_price s seller mint p) := by
  unfold update_price setPaused
  cases hg : getA s.listings mint <;>
    simp [hg, requireP, Except.map] <;>
    split_ifs <;>
    rfl

theorem cancel_offer_pause_insensitive (s : Chain) (b : Bool)
    (offerer mint : Nat) :
    cancel_offer (setPaused s b) offerer mint =
      Except.map (fun t => setPaused t b) (cancel_offer s offerer mint) := by
  unfold cancel_offer setPaused
  cases ho : getA s.offers (mint, offerer) <;>
    cases hoe : getA s.offerEscrows (mint, offerer) <;>
    simp [ho, hoe, requireP, debit, credit, bumpA, Chain.bal, getDA,
      Except.map] <;>
    split_ifs <;>
    rfl

theorem cancel_listing_pause_insensitive (s : Chain) (b : Bool)
    (auth mint : Nat) :
    cancel_listing (setPaused s b) auth mint =
      Except.map (fun t => setPaused t b) (cancel_listing s auth mint) := by
  unfold cancel_listing setPaused
  cases hm : s.marketplace <;>
    cases hl : getA s.listings mint <;>
    cases he : getA s.escrows mint <;>
    simp [hm, hl, he, requireP, transferTokens, bumpA, Chain.tok, getDA,
      Except.map]
  all_goals first
    | rfl
    | (split_ifs <;> rfl)



theorem map_bind_ex {α β γ : Type} (g : α → β) (x : Except Err α)
    (k : β → Except Err γ) :
    (Except.map g x >>= k) = x >>= fun a => k (g a) := by
  cases x <;> rfl

theorem bind_map_ex2 {α β γ : Type} (f : β → γ) (x : Except Err α)
    (k : α → Except Err β) :
    Except.map f (x >>= k) = x >>= fun a => Except.map f (k a) := by
  cases x <;> rfl

theorem bind_congr_ok {α β : Type} {x : Except Err α}
    {k1 k2 : α → Except Err β} (h : ∀ a, x = Except.ok a → k1 a = k2 a) :
    x >>= k1 = x >>= k2 := by
  cases hx : x with
  | ok a => simpa using h a hx
  | error e => rfl

theorem transferLamports_mk2 (M M' : Option Marketplace)
    (L : List (Nat × Listing)) (E : List (Nat × Escrow))
    (O : List ((Nat × Nat) × Offer)) (OE : List ((Nat × Nat) × OfferEscrow))
    (LAM : List (Addr × Nat)) (TOK : List ((Nat × Addr) × Nat))
    (src dst : Addr) (amt : Nat) :
    transferLamports (Chain.mk M L E O OE LAM TOK) src dst amt =
      Except.map (fun t => { t with marketplace := M })
        (transferLamports (Chain.mk M' L E O OE LAM TOK) src dst amt) := by
  simp only [transferLamports, Chain.bal, getDA]
  split_ifs <;> rfl

theorem transferTokens_mk2 (M M' : Option Marketplace)
    (L : List (Nat × Listing)) (E : List (Nat × Escrow))
    (O : List ((Nat × Nat) × Offer)) (OE : List ((Nat × Nat) × OfferEscrow))
    (LAM : List (Addr × Nat)) (TOK : List ((Nat × Addr) × Nat))
    (mint : Nat) (src dst : Addr) (amt : Nat) :
    transferTokens (Chain.mk M L E O OE LAM TOK) mint src dst amt =
      Except.map (fun t => { t with marketplace := M })
        (transferTokens (Chain.mk M' L E O OE LAM TOK) mint src dst amt) := by
  simp only [transferTokens, Chain.tok, getDA]
  split_ifs <;> rfl

theorem debit_mk2 (M M' : Option Marketplace) (L : List (Nat × Listing))
    (E : List (Nat × Escrow)) (O : List ((Nat × Nat) × Offer))
    (OE : List ((Nat × Nat) × OfferEscrow)) (LAM : List (Addr × Nat))
    (TOK : List ((Nat × Addr) × Nat)) (a : Addr) (amt : Nat) :
    debit (Chain.mk M L E O OE LAM TOK) a amt =
      Except.map (fun t => { t with marketplace := M })
        (debit (Chain.mk M' L E O OE LAM TOK) a amt) := by
  simp only [debit, Chain.bal, getDA]
  split_ifs <;> rfl

set_option maxHeartbeats 1000000 in
theorem buy_nft_pause_insensitive (s : Chain) (b : Bool) (buyer mint : Nat)
    (now : Int) :
    buy_nft (setPaused s b) buyer mint now =
      Except.map (fun t => setPaused t b) (buy_nft s buyer mint now) := by
  obtain ⟨MK, L, E, O, OE, LAM, TOK⟩ := s
  unfold buy_nft
  cases MK with
  | none => rfl
  | some m =>
    simp only [setPaused, Option.map, requireP]
    cases hl : getA L mint with
    | none => rfl
    | some l =>
      cases he : getA E mint with
      | none => rfl
      | some e =>
        dsimp only []
        split_ifs <;> try rfl
        cases hst : settle l.price m.fee_bps with
        | error er => rfl
        | ok fp =>
          simp only [bind_ok_ex]
          rw [transferLamports_mk2 _ (some m)]
          rw [map_bind_ex, bind_map_ex2]
          refine bind_congr_ok ?_
          intro s1 hs1
          have hm1 : s1.marketplace = some m :=
            (transferLamports_fields hs1).1
          try dsimp only []
          split_ifs with hf
          · rw [transferLamports_mk2 _ s1.marketplace]
            rw [map_bind_ex, bind_map_ex2]
            refine bind_congr_ok ?_
            intro s2 hs2
            have hm2 : s2.marketplace = some m :=
              ((transferLamports_fields hs2).1).trans hm1
            try dsimp only []
            rw [transferTokens_mk2 _ s2.marketplace]
            rw [map_bind_ex, bind_map_ex2]
            refine bind_congr_ok ?_
            intro s3 hs3
            have hm3 : s3.marketplace = some m :=
              ((transferTokens_fields hs3).1).trans hm2
            simp [Except.map, setPaused, hm3]
          · rw [transferTokens_mk2 _ s1.marketplace]
            rw [map_bind_ex, bind_map_ex2]
            refine bind_congr_ok ?_
            intro s3 hs3
            have hm3 : s3.marketplace = some m :=
              ((transferTokens_fields hs3).1).trans hm1
            simp [Except.map, setPaused, hm3]

theorem chain_ite_mk (c : Prop) [Decidable c] (M1 M2 : Option Marketplace)
    (L1 L2 : List (Nat × Listing)) (E1 E2 : List (Nat × Escrow))
    (O1 O2 : List ((Nat × Nat) × Offer))
    (OE1 OE2 : List ((Nat × Nat) × OfferEscrow))
    (LAM1 LAM2 : List (Addr × Nat)) (T1 T2 : List ((Nat × Addr) × Nat)) :
    (if c then Chain.mk M1 L1 E1 O1 OE1 LAM1 T1
      else Chain.mk M2 L2 E2 O2 OE2 LAM2 T2) =
      Chain.mk (if c then M1 else M2) (if c then L1 else L2)
        (if c then E1 else E2) (if c then O1 else O2)
        (if c then OE1 else OE2) (if c then LAM1 else LAM2)
        (if c then T1 else T2) := by
  split_ifs with h <;> simp

set_option maxHeartbeats 1000000 in
theorem accept_offer_pause_insensitive (s : Chain) (b : Bool)
    (seller offerer mint : Nat) (now : Int) :
    accept_offer (setPaused s b) seller offerer mint now =
      Except.map (fun t => setPaused t b)
        (accept_offer s seller offerer mint now) := by
  obtain ⟨MK, L, E, O, OE, LAM, TOK⟩ := s
  unfold accept_offer
  cases MK with
  | none => rfl
  | some m =>
    simp only [setPaused, Option.map, requireP]
    cases hl : getA L mint with
    | none => rfl
    | some l =>
      cases he : getA E mint with
      | none => rfl
      | some e =>
        cases ho : getA O (mint, offerer) with
        | none => rfl
        | some o =>
          cases hoe : getA OE (mint, offerer) with
          | none => rfl
          | some oe =>
            dsimp only []
            split_ifs <;> try rfl
            cases hst : settle o.amount m.fee_bps with
            | error er => rfl
            | ok fp =>
              simp only [bind_ok_ex]
              rw [debit_mk2 _ (some m)]
              rw [map_bind_ex, bind_map_ex2]
              refine bind_congr_ok ?_
              intro s1 hs1
              have hm1 : s1.marketplace = some m := (debit_fields hs1).1
              dsimp only [credit]
              simp only [chain_ite_mk, ite_self]
              rw [transferTokens_mk2 _ s1.marketplace]
              rw [map_bind_ex, bind_map_ex2]
              refine bind_congr_ok ?_
              intro s4 hs4
              have hm4 : s4.marketplace = some m :=
                ((transferTokens_fields hs4).1).trans hm1
              dsimp only [Chain.bal, getDA]
              rw [debit_mk2 _ s4.marketplace]
              rw [map_bind_ex, bind_map_ex2]
              refine bind_congr_ok ?_
              intro s6 hs6
              have hm6 : s6.marketplace = some m :=
                ((debit_fields hs6).1).trans hm4
              dsimp only [credit]
              simp [Except.map, setPaused, hm6]

/-- C3 counterexample: the claim says every mutating operation first
consults the pause flag and fails when paused, but with the marketplace
paused a `buy_nft` call succeeds outright (the asset moves to the buyer). -/
theorem pause_check_counterexample :
    Option.map Marketplace.paused pausedChain.marketplace = some true ∧
    step pausedChain (Op.buyNft 3 7 5) = Except.ok boughtWhilePausedChain ∧
    boughtWhilePausedChain.tok 7 (Addr.user 3) = 1 := by
  exact ⟨by decide, by decide, by decide⟩

/-- C3 (amended): only `list_nft` and `make_offer` consult the pause flag
(each fails with `MarketplacePaused` when it is set); the five other
non-admin mutating operations — `buy_nft`, `cancel_listing`, `cancel_offer`,
`accept_offer`, `update_price` — never read it: their outcome on a state
with the flag overwritten is the outcome on the original state with the flag
overwritten in the result, so pausing neither blocks nor alters them. -/
theorem pause_gates_only_list_and_make_offer :
    (∀ (s : Chain) (m : Marketplace) (seller mint price : Nat)
      (duration : Int) (au : Bool) (now : Int), s.marketplace = some m →
      m.paused = true →
      list_nft s seller mint price duration au now =
        Except.error (Err.prog MarketplaceError.MarketplacePaused)) ∧
    (∀ (s : Chain) (m : Marketplace) (listing : Listing)
      (offerer mint amount : Nat) (duration now : Int),
      s.marketplace = some m → getA s.listings mint = some listing →
      m.paused = true →
      make_offer s offerer mint amount duration now =
        Except.error (Err.prog MarketplaceError.MarketplacePaused)) ∧
    (∀ (s : Chain) (b : Bool) (op : Op), ignoresPause op = true →
      step (setPaused s b) op =
        Except.map (fun t => setPaused t b) (step s op)) := by
  refine ⟨?_, ?_, ?_⟩
  · intro s m seller mint price duration au now hm hp
    simp [list_nft, hm, requireP, hp]
  · intro s m listing offerer mint amount duration now hm hl hp
    simp [make_offer, hm, hl, requireP, hp]
  · intro s b op hop
    cases op <;> simp only [ignoresPause] at hop <;>
      try exact Bool.noConfusion hop
    · exact cancel_listing_pause_insensitive s b _ _
    · exact buy_nft_pause_insensitive s b _ _ _
    · exact cancel_offer_pause_insensitive s b _ _
    · exact accept_offer_pause_insensitive s b _ _ _ _
    · exact update_price_pause_insensitive s b _ _ _

/-- Witness for the amended C3: the two gated entry points fail on the
paused state, and a purchase commutes with overwriting the pause flag. -/
theorem pause_gates_only_list_and_make_offer_witness :
    list_nft pausedChain 3 8 100 86400 false 0 =
      Except.error (Err.prog MarketplaceError.MarketplacePaused) ∧
    make_offer pausedChain 2 7 5 1000 0 =
      Except.error (Err.prog MarketplaceError.MarketplacePaused) ∧
    step (setPaused listedChain true) (Op.buyNft 3 7 5) =
      Except.map (fun t => setPaused t true)
        (step listedChain (Op.buyNft 3 7 5)) := by
  refine ⟨?_, ?_, ?_⟩
  · exact pause_gates_only_list_and_make_offer.1 pausedChain _ 3 8 100 86400
      false 0 rfl rfl
  · exact pause_gates_only_list_and_make_offer.2.1 pausedChain _ _ 2 7 5 1000
      0 rfl rfl rfl
  · exact pause_gates_only_list_and_make_offer.2.2 listedChain true
      (Op.buyNft 3 7 5) rfl
